import Mathlib

/-!
Verification development for the AppleContainerManager repository.

The definitions below are a shallow embedding, translated from the
TypeScript sources:
  * src/devcontainer/devcontainerManager.ts  (configuration resolver and,
    in its newer revision, the reconciliation / lifecycle orchestrator)
  * src/cli/containerCli.ts                  (process runner and CLI output
    normalizer)
  * src/core/errors.ts                       (error taxonomy)

Modelling conventions:
  * JavaScript strings are Lean `String`s; the JS helpers used by the code
    (trim, split, includes, parseFloat, parseInt) are re-implemented below
    over `List Char` with JS semantics for the ASCII range.
  * JS numbers are modelled as exact rationals (`ℚ`); a devcontainer
    configuration is JSON, whose numeric literals are finite, so NaN and
    the infinities only arise from `parseFloat`, which is modelled by
    `Option JsNum` (`none` = NaN).
  * Asynchronous CLI calls are modelled by outcome oracles: a structure
    that fixes, for each external operation an `apply` call can issue, the
    result the runtime would deliver.  Fixed settling delays (`delay`) and
    polling loops are time-only and are modelled by their outcome.
  * JS `Map`s / plain objects are insertion-ordered association lists.
-/

/-! ### JS string primitives -/

/-- JS whitespace characters recognised by `String.prototype.trim` (ASCII
subset; the code only ever trims ASCII output). -/
def isJsWs (c : Char) : Bool :=
  c == ' ' || c == '\t' || c == '\n' || c == '\r' ||
    c == Char.ofNat 11 || c == Char.ofNat 12

/-- Drop trailing JS whitespace. -/
def dropTrailWs (l : List Char) : List Char :=
  (l.reverse.dropWhile isJsWs).reverse

/-- Characters of a JS `trim`. -/
def trimChars (l : List Char) : List Char :=
  dropTrailWs (l.dropWhile isJsWs)

/-- JS `String.prototype.trim`. -/
def jsTrim (s : String) : String :=
  ⟨trimChars s.data⟩

/-- Whether `pat` is a prefix of `l` (Bool valued). -/
def listStartsWith (pat l : List Char) : Bool :=
  match pat, l with
  | [], _ => true
  | _ :: _, [] => false
  | p :: ps, c :: cs => p == c && listStartsWith ps cs

/-- Whether `pat` occurs as a contiguous substring of `l`. -/
def charsContain (l pat : List Char) : Bool :=
  match l with
  | [] => pat.isEmpty
  | _ :: cs => listStartsWith pat l || charsContain cs pat

/-- JS `String.prototype.includes`. -/
def strIncludes (s sub : String) : Bool :=
  charsContain s.data sub.data

/-- Split a character list on a separator character; JS
`"a:b".split(":")` semantics (the empty input yields `[[]]`). -/
def splitOnChar (sep : Char) : List Char → List (List Char)
  | [] => [[]]
  | c :: rest =>
    if c == sep then
      [] :: splitOnChar sep rest
    else
      match splitOnChar sep rest with
      | [] => [[c]]
      | g :: gs => (c :: g) :: gs

/-! ### JS numbers -/

/-- A non-NaN JS number as produced by `parseFloat`. -/
inductive JsNum where
  | finite (q : ℚ)
  | posInf
  | negInf
deriving DecidableEq, Repr

/-- Numeric value of a run of decimal digits. -/
def digitsVal (ds : List Char) : Nat :=
  ds.foldl (fun a c => a * 10 + (c.toNat - 48)) 0

/-- Exponent part accepted by `parseFloat` after an `e`/`E`; a malformed
exponent is ignored (JS takes the longest valid literal prefix). -/
def parseExpPart (l : List Char) : Int :=
  let (eneg, l2) :=
    match l with
    | '-' :: r => (true, r)
    | '+' :: r => (false, r)
    | _ => (false, l)
  let ds := l2.takeWhile Char.isDigit
  if ds.isEmpty then 0
  else if eneg then -(digitsVal ds : Int) else (digitsVal ds : Int)

/-- JS `Number.parseFloat`: longest valid decimal-literal prefix after
leading whitespace; `none` models NaN. -/
def jsParseFloat (s : String) : Option JsNum :=
  let l0 := s.data.dropWhile isJsWs
  let (neg, l) :=
    match l0 with
    | '-' :: rest => (true, rest)
    | '+' :: rest => (false, rest)
    | _ => (false, l0)
  if listStartsWith ("Infinity".data) l then
    some (if neg then .negInf else .posInf)
  else
    let intPart := l.takeWhile Char.isDigit
    let rest := l.dropWhile Char.isDigit
    let (fracPart, rest2) :=
      match rest with
      | '.' :: r => (r.takeWhile Char.isDigit, r.dropWhile Char.isDigit)
      | _ => (([] : List Char), rest)
    if intPart.isEmpty ∧ fracPart.isEmpty then none
    else
      let mant : ℚ :=
        (digitsVal intPart : ℚ) + (digitsVal fracPart : ℚ) / ((10 : ℚ) ^ fracPart.length)
      let expVal : Int :=
        match rest2 with
        | 'e' :: r => parseExpPart r
        | 'E' :: r => parseExpPart r
        | _ => 0
      let q := mant * (10 : ℚ) ^ expVal
      some (.finite (if neg then -q else q))

/-- JS `Number.parseInt(s, 10)`: leading decimal digits after optional
whitespace and sign; `none` models NaN. -/
def jsParseInt (s : String) : Option Int :=
  let l0 := s.data.dropWhile isJsWs
  let (neg, l) :=
    match l0 with
    | '-' :: rest => (true, rest)
    | '+' :: rest => (false, rest)
    | _ => (false, l0)
  let ds := l.takeWhile Char.isDigit
  if ds.isEmpty then none
  else some (if neg then -(digitsVal ds : Int) else (digitsVal ds : Int))

/-! ### POSIX path helpers used by the resolver

`path.basename`, `path.isAbsolute` and the two-argument `path.resolve`
from Node (POSIX flavour), restricted to the way the resolver calls them
(`path.resolve` is only reached with a relative second argument). -/

/-- Node `path.posix.basename`. -/
def pathBasename (p : String) : String :=
  let parts := (splitOnChar '/' p.data).map (fun l => (⟨l⟩ : String))
  let parts := (parts.reverse.dropWhile (· == "")).reverse
  parts.getLast?.getD ""

/-- Node `path.posix.isAbsolute`. -/
def pathIsAbsolute (p : String) : Bool :=
  p.startsWith "/"

/-- Normalize a path: resolve `.` and `..` segments and collapse
separator runs (Node `path.posix.normalize` on an absolute path). -/
def pathNormalize (p : String) : String :=
  let segs := (splitOnChar '/' p.data).map (fun l => (⟨l⟩ : String))
  let stack := segs.foldl
    (fun acc seg =>
      if seg = "" ∨ seg = "." then acc
      else if seg = ".." then acc.dropLast
      else acc ++ [seg])
    ([] : List String)
  let joined := String.intercalate "/" stack
  if p.startsWith "/" then "/" ++ joined else joined

/-- Node `path.posix.resolve(base, rel)` for the calls the resolver makes
(an absolute `rel` short-circuits in the caller, and `base` is the
absolute workspace or context path). -/
def pathResolve (base rel : String) : String :=
  if pathIsAbsolute rel then pathNormalize rel
  else pathNormalize (base ++ "/" ++ rel)

/-! ### Comment stripping (`stripJsonComments`)

The source applies two global regex replacements in order:
`content.replace(/\/\*[\s\S]*?\*\//g, '').replace(/^\s*\/\/.*$/gm, '')`.
A global replace scans the *original* string left to right for
non-overlapping matches; the lazy block-comment body stops at the first
`*/`.  An unmatched `/*` (no later `*/`) matches nothing and is kept. -/

/-- Skip to just after the first occurrence of `*/`; `none` when there is
no occurrence. -/
def dropThroughClose (l : List Char) : Option (List Char) :=
  match l with
  | [] => none
  | c :: cs =>
    if c = '*' ∧ cs.head? = some '/' then some cs.tail
    else dropThroughClose cs

theorem dropThroughClose_length {l r : List Char} (h : dropThroughClose l = some r) :
    r.length < l.length := by
  induction l with
  | nil => simp [dropThroughClose] at h
  | cons c cs ih =>
    rw [dropThroughClose] at h
    split at h
    · injection h with h
      subst h
      have := List.length_tail cs
      simp only [List.length_cons]
      omega
    · exact Nat.lt_succ_of_lt (ih h)

/-- One global pass of `/\/\*[\s\S]*?\*\//g → ''`: each `/*` whose first
following `*/` exists is removed together with the span between them; the
scan resumes after the removed span.  The recursion is bounded by the
input length, supplied as structural fuel so that the definition
evaluates by kernel reduction. -/
def stripBlockFuel : Nat → List Char → List Char
  | 0, l => l
  | fuel + 1, l =>
    match l with
    | [] => []
    | c :: cs =>
      if c = '/' ∧ cs.head? = some '*' then
        match dropThroughClose cs.tail with
        | some r => stripBlockFuel fuel r
        | none => c :: cs
      else c :: stripBlockFuel fuel cs

/-- The block-comment pass at its bounding fuel. -/
def stripBlockGo (l : List Char) : List Char :=
  stripBlockFuel l.length l

/-- Whether a line matches `^\s*\/\/.*$`: only JS whitespace before a
`//`. -/
def isCommentLine (l : List Char) : Bool :=
  listStartsWith ("//".data) (l.dropWhile isJsWs)

/-- One global pass of `/^\s*\/\/.*$/gm → ''`: a line consisting solely of
a `//` comment (after leading whitespace) is emptied; the newline itself is
kept (`$` is zero-width). -/
def stripLineComments (s : String) : String :=
  String.intercalate "\n"
    (((splitOnChar '\n' s.data).map (fun l => (⟨l⟩ : String))).map
      (fun line => if isCommentLine line.data then "" else line))

/-- `stripJsonComments` from devcontainerManager.ts: block comments first,
then full-line `//` comments. -/
def stripJsonComments (content : String) : String :=
  stripLineComments ⟨stripBlockGo content.data⟩

/-! ### Variable substitution (`resolveVariables`) -/

/-- The variable context threaded through the resolver (the `env` field
models `process.env`). -/
structure VariableContext where
  workspaceFolder : String
  workspaceBasename : String
  containerWorkspaceFolder : String
  env : String → Option String

/-- Resolution of one `${...}` token (the replacement callback). -/
def resolveToken (ctx : VariableContext) (token : String) : String :=
  let t := jsTrim token
  if t = "localWorkspaceFolder" then ctx.workspaceFolder
  else if t = "localWorkspaceFolderBasename" then ctx.workspaceBasename
  else if t = "containerWorkspaceFolder" then ctx.containerWorkspaceFolder
  else if t.startsWith "localEnv:" then
    (ctx.env (t.drop ("localEnv:".length))).getD ""
  else ""

/-- Split at the first `}`: the characters before it and the remainder
after it. -/
def splitAtClose (l : List Char) : Option (List Char × List Char) :=
  match l with
  | [] => none
  | c :: cs =>
    if c = '}' then some ([], cs)
    else (splitAtClose cs).map (fun p => (c :: p.1, p.2))

theorem splitAtClose_length {l a b : List Char}
    (h : splitAtClose l = some (a, b)) : b.length < l.length := by
  induction l generalizing a b with
  | nil => simp [splitAtClose] at h
  | cons c cs ih =>
    rw [splitAtClose] at h
    by_cases hc : c = '}'
    · rw [if_pos hc] at h
      have hb : b = cs := (congrArg Prod.snd (Option.some.inj h)).symm
      subst hb
      simp
    · rw [if_neg hc] at h
      cases hs : splitAtClose cs with
      | none => rw [hs] at h; exact absurd h (by simp)
      | some p =>
        rw [hs] at h
        simp only [Option.map_some'] at h
        obtain ⟨-, hb⟩ := Prod.mk.inj (Option.some.inj h)
        subst hb
        exact Nat.lt_succ_of_lt (ih (a := p.1) (by rw [hs]))

/-- Global replace of `/\$\{([^}]+)\}/g` by `resolveToken`: a `${` with a
non-empty body up to the first `}` is replaced; at a failing position the
`$` is kept and scanning continues (the replacement itself is not
re-scanned).  The recursion is bounded by the input length, supplied as
structural fuel so that the definition evaluates by kernel reduction. -/
def resolveVarsFuel (ctx : VariableContext) : Nat → List Char → List Char
  | 0, l => l
  | fuel + 1, l =>
    match l with
    | [] => []
    | c :: cs =>
      if c = '$' ∧ cs.head? = some '{' then
        match splitAtClose cs.tail with
        | some (tok, after) =>
          if tok.isEmpty then c :: resolveVarsFuel ctx fuel cs
          else (resolveToken ctx ⟨tok⟩).data ++ resolveVarsFuel ctx fuel after
        | none => c :: cs
      else c :: resolveVarsFuel ctx fuel cs

/-- The substitution pass at its bounding fuel. -/
def resolveVarsGo (ctx : VariableContext) (l : List Char) : List Char :=
  resolveVarsFuel ctx l.length l

/-- `resolveVariables(value, context)` from devcontainerManager.ts. -/
def resolveVariables (value : String) (ctx : VariableContext) : String :=
  ⟨resolveVarsGo ctx value.data⟩

/-! ### Devcontainer configuration data model -/

/-- `DevcontainerCommand = string | string[]`. -/
inductive DevcontainerCommand where
  | str (s : String)
  | argv (xs : List String)
deriving DecidableEq, Repr

/-- JS truthiness of an optional `DevcontainerCommand`
(`Boolean(resolved.postCreateCommand)`): `undefined` and the empty string
are falsy; any array (even empty) is truthy. -/
def cmdTruthy : Option DevcontainerCommand → Bool
  | none => false
  | some (.str s) => s ≠ ""
  | some (.argv _) => true

/-- `build.cpus`, typed `number | string` in the source. -/
inductive BuildCpus where
  | num (q : ℚ)
  | str (s : String)
deriving DecidableEq, Repr

/-- `build.image`, typed `string | string[]` in the source. -/
inductive BuildImage where
  | str (s : String)
  | list (xs : List String)
deriving DecidableEq, Repr

/-- `DevcontainerBuildConfig` (all fields optional; `Record<string,string>`
objects are insertion-ordered association lists). -/
structure DevcontainerBuildConfig where
  dockerfile : Option String := none
  context : Option String := none
  args : Option (List (String × String)) := none
  labels : Option (List (String × String)) := none
  target : Option String := none
  options : Option (List String) := none
  noCache : Option Bool := none
  platform : Option String := none
  arch : Option String := none
  os : Option String := none
  cpus : Option BuildCpus := none
  memory : Option String := none
  progress : Option String := none
  quiet : Option Bool := none
  image : Option BuildImage := none
  additionalImageTags : Option (List String) := none
deriving DecidableEq, Repr

/-- An entry of `forwardPorts`, typed `number | string`; JSON numbers are
modelled as integers (every JSON numeric port is finite, so the
`Number.isFinite` guard holds). -/
inductive PortEntry where
  | num (n : Int)
  | str (s : String)
deriving DecidableEq, Repr

/-- `DevcontainerConfig`, the user-authored descriptor. -/
structure DevcontainerConfig where
  name : Option String := none
  image : Option String := none
  remoteUser : Option String := none
  workspaceFolder : Option String := none
  runArgs : Option (List String) := none
  containerEnv : Option (List (String × String)) := none
  mounts : Option (List String) := none
  forwardPorts : Option (List PortEntry) := none
  postCreateCommand : Option DevcontainerCommand := none
  postStartCommand : Option DevcontainerCommand := none
  build : Option DevcontainerBuildConfig := none
deriving DecidableEq, Repr

/-- A resolved volume mapping. -/
structure VolumeMapping where
  source : String
  target : String
  readOnly : Bool
deriving DecidableEq, Repr

/-- `ResolvedBuildConfig`. -/
structure ResolvedBuildConfig where
  context : String
  dockerfile : Option String
  args : List (String × String)
  labels : List (String × String)
  target : Option String
  noCache : Bool
  platform : Option String
  arch : Option String
  os : Option String
  cpus : Option JsNum
  memory : Option String
  progress : Option String
  quiet : Option Bool
  additionalOptions : List String
  tags : List String
deriving DecidableEq, Repr

/-- `ResolvedConfig`, the runtime-ready descriptor. -/
structure ResolvedConfig where
  name : String
  image : String
  remoteUser : Option String
  workspaceFolder : String
  workspacePath : String
  ports : List String
  volumes : List VolumeMapping
  cpus : Option JsNum
  memory : Option String
  additionalArgs : List String
  containerEnv : List (String × String)
  postCreateCommand : Option DevcontainerCommand
  postStartCommand : Option DevcontainerCommand
  build : Option ResolvedBuildConfig
deriving DecidableEq, Repr

/-- `RunArgsParseResult`. -/
structure RunArgsParseResult where
  cpus : Option JsNum := none
  memory : Option String := none
  user : Option String := none
  workdir : Option String := none
  additional : List String := []
deriving DecidableEq, Repr

/-! ### `resolvePorts` -/

/-- JS `Set.prototype.add`: insertion-ordered, deduplicating. -/
def setAdd (s : List String) (x : String) : List String :=
  if s.contains x then s else s ++ [x]

/-- The port string one `forwardPorts` entry contributes (`none` when the
loop body `continue`s without adding). -/
def portOf (entry : PortEntry) : Option String :=
  match entry with
  | .num n => some (toString n ++ ":" ++ toString n)
  | .str s =>
    let trimmed := jsTrim s
    if trimmed = "" then none
    else
      let parts := splitOnChar ':' trimmed.data
      if parts.length = 1 then
        let value : String := ⟨parts.headD []⟩
        some (value ++ ":" ++ value)
      else if parts.length = 2 ∨ parts.length = 3 then some trimmed
      else none

/-- The `for` loop of `resolvePorts` over the entries, threading the set. -/
def resolvePortsGo : List PortEntry → List String → List String
  | [], acc => acc
  | e :: rest, acc =>
    resolvePortsGo rest
      (match portOf e with
       | some p => setAdd acc p
       | none => acc)

/-- `resolvePorts(forwardPorts)`; a non-array (`undefined`) input yields
`[]`. -/
def resolvePorts (forwardPorts : Option (List PortEntry)) : List String :=
  match forwardPorts with
  | none => []
  | some l => resolvePortsGo l []

/-! ### `parseRunArgs` -/

/-- Remainder after the first `=` (JS `indexOf('=')` + `slice`). -/
def afterFirstEq (l : List Char) : Option (List Char) :=
  match l with
  | [] => none
  | c :: rest => if c = '=' then some rest else afterFirstEq rest

/-- `takeValue(arg, next)`: the flag value and how many extra tokens were
consumed. -/
def takeValue (arg : String) (next : Option String) : Option String × Nat :=
  match afterFirstEq arg.data with
  | some v => (some ⟨v⟩, 0)
  | none =>
    match next with
    | some n => (some n, 1)
    | none => (none, 0)

/-- Does `arg` start with one of the recognised `--flag=` spellings
(the guard of the `default` case)? -/
def eqFormFlag (arg : String) : Bool :=
  listStartsWith ("--cpus=".data) arg.data ||
    listStartsWith ("--memory=".data) arg.data ||
    listStartsWith ("--user=".data) arg.data ||
    listStartsWith ("--workdir=".data) arg.data ||
    listStartsWith ("--cwd=".data) arg.data

/-- What the loop body of `parseRunArgs` does with one token: set a typed
field (consuming `k` extra tokens), drop the token (a recognised bare flag
whose value is missing or invalid — the `break` leaves the `switch`
without pushing), or push it onto `additional`. -/
inductive RunArgsAction where
  | setCpus (q : JsNum) (k : Nat)
  | setMemory (v : String) (k : Nat)
  | setUser (v : String) (k : Nat)
  | setWorkdir (v : String) (k : Nat)
  | drop
  | push
deriving DecidableEq, Repr

/-- The `switch` of `parseRunArgs`, translated case by case. -/
def classifyArg (arg : String) (next : Option String) : RunArgsAction :=
  if arg = "--cpus" then
    match takeValue arg next with
    | (some v, k) =>
      match jsParseFloat v with
      | some q => .setCpus q k
      | none => .drop
    | (none, _) => .drop
  else if arg = "--memory" then
    match takeValue arg next with
    | (some v, k) => if v ≠ "" then .setMemory v k else .drop
    | (none, _) => .drop
  else if arg = "--user" ∨ arg = "-u" then
    match takeValue arg next with
    | (some v, k) => if v ≠ "" then .setUser v k else .drop
    | (none, _) => .drop
  else if arg = "--workdir" ∨ arg = "--cwd" ∨ arg = "-w" then
    match takeValue arg next with
    | (some v, k) => if v ≠ "" then .setWorkdir v k else .drop
    | (none, _) => .drop
  else if eqFormFlag arg then
    match (takeValue arg next).1 with
    | some v =>
      if listStartsWith ("--cpus=".data) arg.data then
        match jsParseFloat v with
        | some q => .setCpus q 0
        | none => .push
      else if listStartsWith ("--memory=".data) arg.data then
        if v ≠ "" then .setMemory v 0 else .push
      else if listStartsWith ("--user=".data) arg.data then
        if v ≠ "" then .setUser v 0 else .push
      else if v ≠ "" then .setWorkdir v 0 else .push
    | none => .push
  else .push

/-- The `for` loop of `parseRunArgs`: `continue` after a successful
extraction skips the consumed value token; later assignments to the same
field overwrite earlier ones.  The recursion is bounded by the token
count, supplied as structural fuel so that the definition evaluates by
kernel reduction. -/
def parseRunArgsFuel : Nat → List String → RunArgsParseResult → RunArgsParseResult
  | 0, _, acc => acc
  | fuel + 1, args, acc =>
    match args with
    | [] => acc
    | arg :: rest =>
      match classifyArg arg rest.head? with
      | .setCpus q k => parseRunArgsFuel fuel (rest.drop k) { acc with cpus := some q }
      | .setMemory v k => parseRunArgsFuel fuel (rest.drop k) { acc with memory := some v }
      | .setUser v k => parseRunArgsFuel fuel (rest.drop k) { acc with user := some v }
      | .setWorkdir v k => parseRunArgsFuel fuel (rest.drop k) { acc with workdir := some v }
      | .drop => parseRunArgsFuel fuel rest acc
      | .push => parseRunArgsFuel fuel rest { acc with additional := acc.additional ++ [arg] }

/-- The loop at its bounding fuel. -/
def parseRunArgsGo (args : List String) (acc : RunArgsParseResult) :
    RunArgsParseResult :=
  parseRunArgsFuel args.length args acc

/-- `parseRunArgs(runArgs)`: the loop, then the normalised re-append of an
extracted workdir and user. -/
def parseRunArgs (runArgs : List String) : RunArgsParseResult :=
  let r := parseRunArgsGo runArgs {}
  let r :=
    match r.workdir with
    | some w => { r with additional := r.additional ++ ["--workdir", w] }
    | none => r
  match r.user with
  | some u => { r with additional := r.additional ++ ["--user", u] }
  | none => r

/-! ### Environment, mounts, name, image tag -/

/-- JS object property assignment on an association list: overwrite in
place, else append. -/
def recordSet (r : List (String × String)) (k v : String) : List (String × String) :=
  if r.any (fun p => p.1 == k) then
    r.map (fun p => if p.1 == k then (k, v) else p)
  else r ++ [(k, v)]

/-- `resolveEnv(env, context)`: blank keys skipped, keys trimmed, values
substituted. -/
def resolveEnv (env : List (String × String)) (ctx : VariableContext) :
    List (String × String) :=
  env.foldl
    (fun acc kv =>
      if jsTrim kv.1 = "" then acc
      else recordSet acc (jsTrim kv.1) (resolveVariables kv.2 ctx))
    []

/-- `parseMount(entry, context)`. -/
def parseMount (entry : String) (ctx : VariableContext) : Option VolumeMapping :=
  if jsTrim entry = "" then none
  else
    let segments :=
      ((splitOnChar ',' entry.data).map (fun l => jsTrim ⟨l⟩)).filter (· ≠ "")
    let st := segments.foldl
      (fun (acc : Option String × Option String × Bool) seg =>
        let (src, tgt, ro) := acc
        if seg = "ro" then (src, tgt, true)
        else if seg = "rw" then (src, tgt, false)
        else
          let parts := splitOnChar '=' seg.data
          let rawKey : String := ⟨parts.headD []⟩
          let rawValue : Option String := ((parts.drop 1).head?).map (fun l => (⟨l⟩ : String))
          let key := jsTrim rawKey
          let value := jsTrim (rawValue.getD "")
          if key = "" then (src, tgt, ro)
          else
            let resolvedValue := resolveVariables value ctx
            if key = "source" ∨ key = "src" then (some resolvedValue, tgt, ro)
            else if key = "target" ∨ key = "dst" ∨ key = "destination" then
              (src, some resolvedValue, ro)
            else if key = "readonly" ∨ key = "ro" then
              (src, tgt, value = "true" ∨ value = "1")
            else (src, tgt, ro))
      (none, none, false)
    match st with
    | (some s, some t, ro) => if s = "" ∨ t = "" then none else some ⟨s, t, ro⟩
    | _ => none

/-- `resolveVolumes(mounts, context, workspacePath, workspaceFolder)`: the
workspace volume first, then user mounts with the duplicate of the
workspace volume suppressed. -/
def resolveVolumes (mounts : Option (List String)) (ctx : VariableContext)
    (workspacePath workspaceFolder : String) : List VolumeMapping :=
  (mounts.getD []).foldl
    (fun acc m =>
      match parseMount m ctx with
      | none => acc
      | some p =>
        if p.target = workspaceFolder ∧ p.source = workspacePath then acc
        else acc ++ [p])
    [⟨workspacePath, workspaceFolder, false⟩]

/-- `resolveName(name, basename)`. -/
def resolveName (name : Option String) (basename : String) : String :=
  match name with
  | some n => if jsTrim n ≠ "" then jsTrim n else "acm-" ++ basename
  | none => "acm-" ++ basename

/-- Lowercase slug characters accepted by `/[^a-z0-9]+/`. -/
def isSlugChar (c : Char) : Bool :=
  ('a' ≤ c && c ≤ 'z') || ('0' ≤ c && c ≤ '9')

/-- Replace every maximal run of non-slug characters by a single dash
(`.replace(/[^a-z0-9]+/g, '-')`): the first character of a run emits the
dash, the rest of the run is skipped (tracked by the `inRun` flag). -/
def collapseGo (inRun : Bool) : List Char → List Char
  | [] => []
  | c :: rest =>
    if isSlugChar c then c :: collapseGo false rest
    else if inRun then collapseGo true rest
    else '-' :: collapseGo true rest

/-- The run-collapsing replacement from the start of the string. -/
def collapseNonSlug (l : List Char) : List Char :=
  collapseGo false l

/-- Strip a leading and a trailing dash run (`.replace(/^-+|-+$/g, '')`). -/
def stripDashes (l : List Char) : List Char :=
  ((l.dropWhile (· == '-')).reverse.dropWhile (· == '-')).reverse

/-- `generateImageTag(basename)`: the fallback image tag
`acm/<slugified-basename>:dev`. -/
def generateImageTag (basename : String) : String :=
  let slug : String := ⟨stripDashes (collapseNonSlug (basename.data.map Char.toLower))⟩
  let safeSlug := if slug.length > 0 then slug else "workspace"
  "acm/" ++ safeSlug ++ ":dev"

/-! ### `resolveBuild` and `resolveConfig` -/

/-- JS truthiness gate on an optional string (`build.x ? f(build.x) :
undefined` — present-but-empty behaves like absent). -/
def truthyOpt : Option String → Option String
  | some s => if s ≠ "" then some s else none
  | none => none

/-- The local `addTag` closure: skip falsy, trim, skip blank, set-add. -/
def addTag (tagSet : List String) (tag : String) : List String :=
  let trimmed := jsTrim tag
  if trimmed ≠ "" then setAdd tagSet trimmed else tagSet

/-- `resolveBuild(build, context, workspacePath, fallbackImage)`. -/
def resolveBuild (build : DevcontainerBuildConfig) (ctx : VariableContext)
    (workspacePath fallbackImage : String) : ResolvedBuildConfig :=
  let contextValue :=
    match truthyOpt build.context with
    | some c => resolveVariables c ctx
    | none => "."
  let contextPath :=
    if pathIsAbsolute contextValue then contextValue
    else pathResolve workspacePath contextValue
  let dockerfilePath :=
    match truthyOpt build.dockerfile with
    | some d =>
      let dockerfileValue := resolveVariables d ctx
      some (if pathIsAbsolute dockerfileValue then dockerfileValue
            else pathResolve contextPath dockerfileValue)
    | none => none
  let args := resolveEnv (build.args.getD []) ctx
  let labels := resolveEnv (build.labels.getD []) ctx
  let target := (truthyOpt build.target).map (resolveVariables · ctx)
  let platform := (truthyOpt build.platform).map (resolveVariables · ctx)
  let arch := (truthyOpt build.arch).map (resolveVariables · ctx)
  let osValue := (truthyOpt build.os).map (resolveVariables · ctx)
  let memory := (truthyOpt build.memory).map (resolveVariables · ctx)
  let cpus : Option JsNum :=
    match build.cpus with
    | some (.num q) => some (.finite q)
    | some (.str s) => jsParseFloat (resolveVariables s ctx)
    | none => none
  let additionalOptions :=
    ((build.options.getD []).map (resolveVariables · ctx)).filter
      (fun o => jsTrim o ≠ "")
  let tagSet : List String := []
  let tagSet :=
    match build.image with
    | some (.str s) => addTag tagSet (resolveVariables s ctx)
    | some (.list xs) => xs.foldl (fun ts t => addTag ts (resolveVariables t ctx)) tagSet
    | none => tagSet
  let tagSet :=
    (build.additionalImageTags.getD []).foldl
      (fun ts t => addTag ts (resolveVariables t ctx)) tagSet
  let tagSet := addTag tagSet fallbackImage
  { context := contextPath
    dockerfile := dockerfilePath
    args := args
    labels := labels
    target := target
    noCache := build.noCache.getD false
    platform := platform
    arch := arch
    os := osValue
    cpus := cpus
    memory := memory
    progress := build.progress
    quiet := build.quiet
    additionalOptions := additionalOptions
    tags := tagSet }

/-- `resolveConfig(config, workspacePath)`; `envOracle` models
`process.env`; the `AppleContainerError` throw for a missing image/build
is the `Except.error` case. -/
def resolveConfig (envOracle : String → Option String)
    (config : DevcontainerConfig) (workspacePath : String) :
    Except String ResolvedConfig :=
  let workspaceBasename := pathBasename workspacePath
  let defaultWorkspaceFolder := "/workspaces/" ++ workspaceBasename
  let defaultContext : VariableContext :=
    ⟨workspacePath, workspaceBasename, defaultWorkspaceFolder, envOracle⟩
  let workspaceFolderRaw := config.workspaceFolder.getD defaultWorkspaceFolder
  let workspaceFolder := resolveVariables workspaceFolderRaw defaultContext
  let variableContext :=
    { defaultContext with containerWorkspaceFolder := workspaceFolder }
  let runArgsResult := parseRunArgs (config.runArgs.getD [])
  let fallbackImage := generateImageTag workspaceBasename
  let imageCandidate : Option String :=
    match config.image with
    | some s => if s ≠ "" then some (resolveVariables s variableContext) else none
    | none => none
  let build :=
    config.build.map (fun b =>
      resolveBuild b variableContext workspacePath (imageCandidate.getD fallbackImage))
  let resolvedImage :=
    match imageCandidate with
    | some ic => ic
    | none =>
      match build with
      | some b => b.tags.headD ""
      | none => ""
  if resolvedImage = "" then
    .error "devcontainer.json must provide either an \"image\" or a build definition."
  else
    let build := build.map (fun b =>
      if b.tags.contains resolvedImage then b
      else { b with tags := resolvedImage :: b.tags })
    .ok
      { name := resolveName config.name workspaceBasename
        image := resolvedImage
        remoteUser :=
          match config.remoteUser with
          | some u => some u
          | none => runArgsResult.user
        workspaceFolder := workspaceFolder
        workspacePath := workspacePath
        ports := resolvePorts config.forwardPorts
        volumes := resolveVolumes config.mounts variableContext workspacePath workspaceFolder
        cpus := runArgsResult.cpus
        memory := runArgsResult.memory
        additionalArgs := runArgsResult.additional
        containerEnv := resolveEnv (config.containerEnv.getD []) variableContext
        postCreateCommand := config.postCreateCommand
        postStartCommand := config.postStartCommand
        build := build }

/-- `detectForwardedPort(ports, containerPort)`. -/
def detectForwardedPort (ports : List String) (containerPort : Int) : Option String :=
  ports.findSome? fun spec =>
    let segments :=
      ((splitOnChar ':' spec.data).map (fun l => jsTrim ⟨l⟩)).filter (· ≠ "")
    match segments with
    | [hostPort, container] =>
      if jsParseInt container = some containerPort then some hostPort else none
    | [_, hostPort, container] =>
      if jsParseInt container = some containerPort then some hostPort else none
    | _ => none

/-! ### Reconciliation & lifecycle orchestrator

Embedded from the newer `DevcontainerManager` revision (the one with the
reuse path, the `exists`-collision retry and the zombie-tolerant
removal).  Asynchronous CLI and SSH effects are modelled by a `CliWorld`
oracle fixing each operation's outcome (`none` = the awaited promise
fulfilled, `some m` = it rejected with message `m`); the orchestrator
function returns the sequence of issued operations and the overall
outcome.  `delay` calls and the polling loop of `waitForContainer` are
time-only and are represented by the `createdVisible` oracle field. -/

/-- A container as seen by `findContainerByName` / `waitForContainer`. -/
structure ContainerRef where
  id : String
  name : String
deriving DecidableEq, Repr

/-- One externally observable operation issued by the orchestrator. -/
inductive OrchEvent where
  | buildImage
  | listContainers
  | startContainer (id : String)
  | stopContainer (id : String)
  | removeAttempt (target : String)
  | createAttempt (name : String)
  | ensureSshKey
  | injectSshKey (id : String)
  | updateSshConfig (host : String) (port : String)
  | runLifecycle (label : String)
  | notify (msg : String)
deriving DecidableEq, Repr

/-- Outcome oracle for one `apply` call.  `removeErr`/`createErr` are
indexed by attempt number within the call (an `apply` can remove at most
twice and create at most twice). -/
structure CliWorld where
  containers : List ContainerRef
  buildErr : Option String := none
  startErr : Option String := none
  stopErr : Option String := none
  removeErr : Nat → Option String := fun _ => none
  createErr : Nat → Option String := fun _ => none
  sshKeyErr : Option String := none
  sshConfigErr : Option String := none
  injectErr : Option String := none
  postCreateErr : Option String := none
  postStartErr : Option String := none
  createdVisible : Bool := true
  createdId : Option String := none

/-- Result of one `apply` call: the issued operations, the promise
outcome (`none` = fulfilled), and whether `appliedState.set` was
reached. -/
structure ApplyResult where
  trace : List OrchEvent
  outcome : Option String
  stateWritten : Bool
deriving DecidableEq, Repr

/-- `findContainerByName`: first container matching by name or id. -/
def findContainerByName (containers : List ContainerRef) (name : String) :
    Option ContainerRef :=
  containers.find? (fun c => c.name == name || c.id == name)

/-- `removeContainer(id, name)`: a failure whose message indicates a
missing backing record (`No such file or directory` / `config.json`) is
swallowed; any other failure is rethrown. -/
def removalOutcome (err : Option String) : Option String :=
  match err with
  | none => none
  | some m =>
    if strIncludes m "No such file or directory" || strIncludes m "config.json" then none
    else some m

/-- One `executeLifecycleCommand` call: the event plus the wrapped error
on failure (the source wraps with a trailing space after the message). -/
def lifecycleStep (err : Option String) (label : String) :
    List OrchEvent × Option String :=
  match err with
  | some m => ([.runLifecycle label], some ("Failed to run " ++ label ++ ": " ++ m ++ " "))
  | none => ([.runLifecycle label], none)

/-- `runPostCommands(containerId, resolved, stages)`. -/
def runPostCommands (w : CliWorld) (r : ResolvedConfig)
    (runCreate runStart : Bool) : List OrchEvent × Option String :=
  let (t1, e1) :=
    if runCreate && cmdTruthy r.postCreateCommand then
      lifecycleStep w.postCreateErr "postCreateCommand"
    else ([], none)
  match e1 with
  | some m => (t1, some m)
  | none =>
    let (t2, e2) :=
      if runStart && cmdTruthy r.postStartCommand then
        lifecycleStep w.postStartErr "postStartCommand"
      else ([], none)
    (t1 ++ t2, e2)

/-- The tail of `applyDevcontainer` after a successful create: wait for
visibility, start, inject the key (best effort), cache the applied state,
update the SSH config and run the lifecycle hooks. -/
def provisionAfterCreate (w : CliWorld) (r : ResolvedConfig)
    (t : List OrchEvent) : ApplyResult :=
  let t1 := t ++ [.listContainers]
  if !w.createdVisible then ⟨t1, none, false⟩
  else
    let cid := w.createdId.getD r.name
    let t2 := t1 ++ [.startContainer cid]
    match w.startErr with
    | some m => ⟨t2, some m, false⟩
    | none =>
      let t3 := t2 ++ [.injectSshKey cid]
      let port := (detectForwardedPort r.ports 22).getD "2222"
      let t4 := t3 ++ [.updateSshConfig r.name port]
      match w.sshConfigErr with
      | some m => ⟨t4, some m, true⟩
      | none =>
        let (tp, pe) :=
          runPostCommands w r (cmdTruthy r.postCreateCommand) (cmdTruthy r.postStartCommand)
        match pe with
        | some m => ⟨t4 ++ tp, some m, true⟩
        | none =>
          ⟨t4 ++ tp ++ [.notify ("Devcontainer " ++ r.name ++ " is ready.")], none, true⟩

/-- The create path of `applyDevcontainer`: ensure the SSH key, create;
on a create failure whose message contains `exists`, force-remove by name
(all removal failures are swallowed by the surrounding `catch`) and retry
the create exactly once; any other create failure, and a failure of the
retry, propagates. -/
def createAndProvision (w : CliWorld) (r : ResolvedConfig)
    (t : List OrchEvent) : ApplyResult :=
  let t1 := t ++ [.ensureSshKey]
  match w.sshKeyErr with
  | some m => ⟨t1, some m, false⟩
  | none =>
    let t2 := t1 ++ [.createAttempt r.name]
    match w.createErr 0 with
    | none => provisionAfterCreate w r t2
    | some m =>
      if strIncludes m "exists" then
        let t3 := t2 ++ [.removeAttempt r.name]
        let t4 := t3 ++ [.createAttempt r.name]
        match w.createErr 1 with
        | none => provisionAfterCreate w r t4
        | some m2 => ⟨t4, some m2, false⟩
      else ⟨t2, some m, false⟩

/-- `applyDevcontainer(options)` from the resolved configuration on:
optional image build, reconciliation against an existing container
(reuse, or stop/stop/remove on rebuild), then create and provision. -/
def applyDevcontainerResolved (w : CliWorld) (r : ResolvedConfig)
    (rebuild : Bool) : ApplyResult :=
  let buildTrace : List OrchEvent := if r.build.isSome then [.buildImage] else []
  match (if r.build.isSome then w.buildErr else none) with
  | some m => ⟨buildTrace, some ("Image build failed: " ++ m), false⟩
  | none =>
    let t0 := buildTrace ++ [.listContainers]
    match findContainerByName w.containers r.name with
    | some existing =>
      if !rebuild then
        let t1 := t0 ++ [.startContainer existing.id]
        match w.startErr with
        | some m => ⟨t1, some m, false⟩
        | none =>
          let t2 := t1 ++ [.ensureSshKey]
          match w.sshKeyErr with
          | some m => ⟨t2, some m, false⟩
          | none =>
            let t3 := t2 ++ [.injectSshKey existing.id]
            let port := (detectForwardedPort r.ports 22).getD "2222"
            let t4 := t3 ++ [.updateSshConfig r.name port]
            match w.sshConfigErr with
            | some m => ⟨t4, some m, false⟩
            | none =>
              let (tp, pe) := runPostCommands w r false (cmdTruthy r.postStartCommand)
              match pe with
              | some m => ⟨t4 ++ tp, some m, false⟩
              | none =>
                ⟨t4 ++ tp ++ [.notify ("Devcontainer " ++ r.name ++ " is ready (reused).")],
                  none, false⟩
      else
        let t1 := t0 ++ [.stopContainer existing.id, .stopContainer existing.id]
        let t2 := t1 ++ [.removeAttempt existing.id]
        match removalOutcome (w.removeErr 0) with
        | some m => ⟨t2, some m, false⟩
        | none => createAndProvision w r t2
    | none => createAndProvision w r t0

/-! ### The per-workspace `appliedState` cache

The manager owns `appliedState : Map<string, ResolvedConfig>` keyed by
the workspace-folder URI.  The load-and-resolve step (`loadConfig` +
`resolveConfig`) of an operation is modelled by a per-folder outcome
oracle: no configuration file, a resolver throw, or a resolved
configuration. -/

/-- Outcome of `loadConfig` + `resolveConfig` for a workspace folder. -/
inductive LoadResolveOutcome where
  | noConfig
  | resolveFail (msg : String)
  | resolved (r : ResolvedConfig)
deriving DecidableEq, Repr

/-- A picked workspace folder: its URI key and its load/resolve outcome. -/
structure FolderCtx where
  key : String
  outcome : LoadResolveOutcome
deriving DecidableEq, Repr

/-- The `appliedState` map as an insertion-ordered association list. -/
abbrev AppliedState := List (String × ResolvedConfig)

/-- JS `Map.prototype.set`. -/
def stateSet (st : AppliedState) (k : String) (r : ResolvedConfig) : AppliedState :=
  if st.any (fun p => p.1 == k) then
    st.map (fun p => if p.1 == k then (k, r) else p)
  else st ++ [(k, r)]

/-- JS `Map.prototype.get`. -/
def stateGet (st : AppliedState) (k : String) : Option ResolvedConfig :=
  (st.find? (fun p => p.1 == k)).map (fun p => p.2)

/-- `dispose()`: `this.appliedState.clear()`. -/
def managerDispose (_st : AppliedState) : AppliedState := []

/-- `getResolvedConfig(folder)`: return the cached entry, otherwise load
and resolve — and cache the result before returning it.  A resolver throw
propagates. -/
def getResolvedConfig (folder : FolderCtx) (st : AppliedState) :
    Except String (Option ResolvedConfig × AppliedState) :=
  match stateGet st folder.key with
  | some cached => .ok (some cached, st)
  | none =>
    match folder.outcome with
    | .noConfig => .ok (none, st)
    | .resolveFail m => .error m
    | .resolved r => .ok (some r, stateSet st folder.key r)

/-- `showOpenInstructions()`: looks up the resolved configuration (via
`getResolvedConfig`); everything after that is UI-only. -/
def showOpenInstructions (folder : FolderCtx) (st : AppliedState) :
    Except String AppliedState :=
  match getResolvedConfig folder st with
  | .error m => .error m
  | .ok (_, st2) => .ok st2

/-- `runPostLifecycle()`: look up the resolved configuration, locate the
container, re-run both hooks; no further state writes. -/
def runPostLifecycle (w : CliWorld) (folder : FolderCtx) (st : AppliedState) :
    Except String AppliedState :=
  match getResolvedConfig folder st with
  | .error m => .error m
  | .ok (none, st2) => .ok st2
  | .ok (some r, st2) =>
    match findContainerByName w.containers r.name with
    | none => .ok st2
    | some _ =>
      match (runPostCommands w r (cmdTruthy r.postCreateCommand)
              (cmdTruthy r.postStartCommand)).2 with
      | some m => .error m
      | none => .ok st2

/-- `applyDevcontainer` including the state cache: the entry is written
exactly when the run reaches `appliedState.set` (the create path after
the container became visible). -/
def applyDevcontainer (w : CliWorld) (folder : FolderCtx) (st : AppliedState)
    (rebuild : Bool) : AppliedState × ApplyResult :=
  match folder.outcome with
  | .noConfig => (st, ⟨[], none, false⟩)
  | .resolveFail m => (st, ⟨[], some m, false⟩)
  | .resolved r =>
    let res := applyDevcontainerResolved w r rebuild
    (if res.stateWritten then stateSet st folder.key r else st, res)

/-- `buildDevcontainer()`: resolve, build when a build section exists, and
cache the resolved configuration on success. -/
def buildDevcontainer (w : CliWorld) (folder : FolderCtx) (st : AppliedState) :
    AppliedState × List OrchEvent × Option String :=
  match folder.outcome with
  | .noConfig => (st, [], none)
  | .resolveFail m => (st, [], some m)
  | .resolved r =>
    match r.build with
    | none => (st, [], none)
    | some _ =>
      match w.buildErr with
      | some m => (st, [.buildImage], some ("Image build failed: " ++ m))
      | none => (stateSet st folder.key r, [.buildImage], none)

/-! ### Error taxonomy and the process runner (`containerCli.ts`,
`errors.ts`)

`execFile` outcomes are modelled by `SpawnResult`: a zero exit status
with captured stdout/stderr, or a launch/exit failure carrying the
`error.code` (a string such as `ENOENT`; a numeric exit status is any
other value), the error message and the captured stderr. -/

/-- `ErrorCode` from errors.ts. -/
inductive ErrorCode where
  | cliNotFound
  | commandFailed
  | permissionDenied
  | networkError
  | unknown
deriving DecidableEq, Repr

/-- `AppleContainerError` (message + code; the `cause` chain carries no
behaviour). -/
structure AppleContainerError where
  message : String
  code : ErrorCode
deriving DecidableEq, Repr

/-- Outcome of one `execFileAsync` invocation. -/
inductive SpawnResult where
  | success (stdout stderr : String)
  | failure (code : Option String) (message : Option String) (stderr : Option String)
deriving DecidableEq, Repr

/-- `normalizeError(error, args)` from containerCli.ts. -/
def normalizeError (code : Option String) (message : Option String)
    (stderr : Option String) : AppleContainerError :=
  if code = some "ENOENT" then
    ⟨"container CLI not found on PATH", .cliNotFound⟩
  else if code = some "EACCES" then
    ⟨"Permission denied while executing container CLI", .permissionDenied⟩
  else
    let st := stderr.map jsTrim
    let msg :=
      match st with
      | some s => if s ≠ "" then s else message.getD "Unknown CLI error"
      | none => message.getD "Unknown CLI error"
    ⟨msg, .commandFailed⟩

/-- The `{stdout, stderr}` value `exec` resolves with. -/
structure ExecOutput where
  stdout : String
  stderr : String
deriving DecidableEq, Repr

/-- `exec(args, options)`: on success both streams are trimmed and the
call resolves (a non-empty stderr alone is only logged); on failure the
normalized error is thrown. -/
def cliExec (spawn : SpawnResult) : Except AppleContainerError ExecOutput :=
  match spawn with
  | .success out err => .ok ⟨jsTrim out, jsTrim err⟩
  | .failure c m st => .error (normalizeError c m st)

/-! ### JSON values and record access

`JSON.parse` output.  JS `typeof x === 'object' && x !== null` is true
for arrays as well, so the `isRecord` guard admits them and property
access on an array resolves canonical numeric indices. -/

/-- A parsed JSON value (`unknown` in the source).  JSON numbers are
exact rationals. -/
inductive Js where
  | str (s : String)
  | num (q : ℚ)
  | bool (b : Bool)
  | null
  | arr (xs : List Js)
  | obj (fields : List (String × Js))

/-- `isRecord(value)`: objects and arrays. -/
def jsIsRecord : Js → Bool
  | .obj _ => true
  | .arr _ => true
  | _ => false

/-- A canonical array-index property name (`"0"`, `"17"`, no leading
zeros). -/
def canonicalIndex (k : String) : Option Nat :=
  match k.data with
  | [] => none
  | c :: rest =>
    if c = '0' then (if rest.isEmpty then some 0 else none)
    else if (c :: rest).all Char.isDigit then some (digitsVal (c :: rest))
    else none

/-- JS property access `value[key]` on a record (`none` = `undefined`). -/
def jsGet (v : Js) (k : String) : Option Js :=
  match v with
  | .obj fields => (fields.find? (fun p => p.1 == k)).map (fun p => p.2)
  | .arr xs =>
    match canonicalIndex k with
    | some i => xs.get? i
    | none => none
  | _ => none

/-- `asRecord(value)`. -/
def asRecord (v : Option Js) : Option Js :=
  match v with
  | some x => if jsIsRecord x then some x else none
  | none => none

/-- `asArray(value)` (`Array.isArray`). -/
def asArray (v : Option Js) : Option (List Js) :=
  match v with
  | some (.arr xs) => some xs
  | _ => none

/-- `firstString(...values)`: skip `undefined`/`null`; a string yields its
trim when non-blank; a finite number yields its decimal string. -/
def firstString (values : List (Option Js)) : Option String :=
  values.findSome? fun v =>
    match v with
    | some (.str s) => if jsTrim s ≠ "" then some (jsTrim s) else none
    | some (.num q) =>
      some (if q.den = 1 then toString q.num else toString q)
    | _ => none

/-- `firstDefined(...values)`: first non-`undefined` value (`null`
qualifies). -/
def firstDefined (values : List (Option Js)) : Option Js :=
  values.findSome? id

/-- A `??` chain: first value that is neither `undefined` nor `null`. -/
def firstNonNullish (values : List (Option Js)) : Option Js :=
  values.findSome? fun v =>
    match v with
    | some .null => none
    | some x => some x
    | none => none

/-- First array among alternatives (an `asArray(..) ?? asArray(..)`
chain). -/
def firstArray (xs : List (Option (List Js))) : Option (List Js) :=
  xs.findSome? id

/-- First record among alternatives (an `asRecord(..) ?? asRecord(..)`
chain). -/
def firstRecord (xs : List (Option Js)) : Option Js :=
  xs.findSome? id

/-- `getNestedValue(source, path)`. -/
def getNestedValue (source : Option Js) : List String → Option Js
  | [] => source
  | seg :: rest =>
    match source with
    | some v => if jsIsRecord v then getNestedValue (jsGet v seg) rest else none
    | none => none

/-- `getNestedString(source, path)`. -/
def getNestedString (source : Option Js) (path : List String) : Option String :=
  firstString [getNestedValue source path]

/-! ### Field formatting helpers of the normalizer -/

/-- JS number-to-string.  Integral values (the only ones the claims
exercise) print exactly; JS shortest-roundtrip printing of non-integral
doubles is approximated by the rational rendering. -/
def jsNumToString (q : ℚ) : String :=
  if q.den = 1 then toString q.num else toString q

/-- `toFixed(0)` on a non-negative value (round half away from zero). -/
def toFixed0 (q : ℚ) : String :=
  toString (Int.floor (q + 1/2))

/-- `toFixed(1)` on a non-negative value. -/
def toFixed1 (q : ℚ) : String :=
  let n := Int.floor (q * 10 + 1/2)
  toString (n / 10) ++ "." ++ toString (n % 10)

/-- The `while (size >= 1024 && unitIndex < units.length - 1)` loop of
`formatBytes`; the index bound caps it at five iterations. -/
def formatBytesGo : Nat → ℚ → Int → ℚ × Int
  | 0, size, idx => (size, idx)
  | fuel + 1, size, idx =>
    if size ≥ 1024 ∧ idx < 4 then formatBytesGo fuel (size / 1024) (idx + 1)
    else (size, idx)

/-- `formatBytes(bytes)`: `B` below 1024, otherwise divide into
KB/MB/GB/TB/PB; values ≥ 10 in a unit round to an integer, otherwise one
decimal place. -/
def formatBytes (bytes : ℚ) : String :=
  let absolute := |bytes|
  if absolute < 1024 then jsNumToString bytes ++ " B"
  else
    let units := ["KB", "MB", "GB", "TB", "PB"]
    let p := formatBytesGo 6 absolute (-1)
    let formatted := if p.1 ≥ 10 then toFixed0 p.1 else toFixed1 p.1
    let sign := if bytes < 0 then "-" else ""
    sign ++ formatted ++ " " ++ (units.get? p.2.toNat).getD ""

/-- JS `Number(string)` (`none` = NaN): trims, the empty string is `0`,
otherwise the whole string must be a decimal literal.  (Hex and
`Infinity` literals never occur in the CLI output and are not
modelled.) -/
def jsStringToNumber (s : String) : Option ℚ :=
  let t := jsTrim s
  if t = "" then some 0
  else
    let (neg, l) :=
      match t.data with
      | '-' :: rest => (true, rest)
      | '+' :: rest => (false, rest)
      | other => (false, other)
    let intPart := l.takeWhile Char.isDigit
    let rest := l.dropWhile Char.isDigit
    let (fracPart, rest2) :=
      match rest with
      | '.' :: r => (r.takeWhile Char.isDigit, r.dropWhile Char.isDigit)
      | _ => (([] : List Char), rest)
    if intPart.isEmpty ∧ fracPart.isEmpty then none
    else
      let mant : ℚ :=
        (digitsVal intPart : ℚ) + (digitsVal fracPart : ℚ) / ((10 : ℚ) ^ fracPart.length)
      let expPart : Option Int :=
        match rest2 with
        | [] => some 0
        | 'e' :: r =>
          let (eneg, r2) :=
            match r with
            | '-' :: rr => (true, rr)
            | '+' :: rr => (false, rr)
            | other => (false, other)
          let ds := r2.takeWhile Char.isDigit
          if ds.isEmpty ∨ (r2.dropWhile Char.isDigit).length ≠ 0 then none
          else some (if eneg then -(digitsVal ds : Int) else (digitsVal ds : Int))
        | 'E' :: r =>
          let (eneg, r2) :=
            match r with
            | '-' :: rr => (true, rr)
            | '+' :: rr => (false, rr)
            | other => (false, other)
          let ds := r2.takeWhile Char.isDigit
          if ds.isEmpty ∨ (r2.dropWhile Char.isDigit).length ≠ 0 then none
          else some (if eneg then -(digitsVal ds : Int) else (digitsVal ds : Int))
        | _ => none
      match expPart with
      | none => none
      | some e =>
        let q := mant * (10 : ℚ) ^ e
        some (if neg then -q else q)

/-- JS `String(value)` for the fallbacks of the normalizer (array
elements that are `null` stringify to the empty string). -/
def jsToString (v : Js) : String :=
  match v with
  | .str s => s
  | .num q => jsNumToString q
  | .bool b => if b then "true" else "false"
  | .null => "null"
  | .arr xs => String.intercalate "," (jsToStringItems xs)
  | .obj _ => "[object Object]"
where
  jsToStringItems : List Js → List String
    | [] => []
    | .null :: rest => "" :: jsToStringItems rest
    | x :: rest => jsToString x :: jsToStringItems rest

/-- `formatMaybeBytes(value)`. -/
def formatMaybeBytes (value : Option Js) : Option String :=
  match value with
  | none => none
  | some .null => none
  | some (.num n) => some (formatBytes n)
  | some (.str s) =>
    match jsStringToNumber s with
    | some n => some (formatBytes n)
    | none => some s
  | some other => some (jsToString other)

/-- Index (from the left) of the last occurrence of `c`, `-1` when
absent (JS `lastIndexOf`). -/
def lastIndexOfChar (c : Char) (l : List Char) : Int :=
  match l.reverse.findIdx? (· == c) with
  | some i => (l.length : Int) - 1 - (i : Int)
  | none => -1

/-- Result shape of `parseImageReference`. -/
structure ImageRefDetails where
  repository : Option String := none
  tag : Option String := none
  full : Option String := none
deriving DecidableEq, Repr

/-- `parseImageReference(reference?, tagHint?)`. -/
def parseImageReference (reference : Option String) (tagHint : Option String) :
    ImageRefDetails :=
  match reference with
  | none =>
    match tagHint with
    | some t => { tag := some t }
    | none => {}
  | some reference =>
    let trimmed := jsTrim reference
    if trimmed = "" then {}
    else
      let lastColon := lastIndexOfChar ':' trimmed.data
      let lastSlash := lastIndexOfChar '/' trimmed.data
      if lastColon > lastSlash then
        let repository : String := ⟨trimmed.data.take lastColon.toNat⟩
        let tagRaw : String := ⟨trimmed.data.drop (lastColon.toNat + 1)⟩
        let tag :=
          if tagRaw ≠ "" then tagRaw
          else
            match truthyOpt tagHint with
            | some t => t
            | none => "latest"
        { repository := if repository = "" then none else some repository
          tag := some tag
          full := some trimmed }
      else
        { repository := some trimmed
          tag := some (tagHint.getD "latest")
          full :=
            match truthyOpt tagHint with
            | some t => some (trimmed ++ ":" ++ t)
            | none => some trimmed }

/-- `composePortEntry(containerPort, hostAddress, hostPort, proto)`. -/
def composePortEntry (containerPort hostAddress hostPort proto : Option String) :
    String :=
  let p1 : List String :=
    match truthyOpt hostAddress with
    | some ha => if ha ≠ "0.0.0.0" then [ha ++ ":"] else []
    | none => []
  let p2 := p1 ++ (match truthyOpt hostPort with | some hp => [hp] | none => [])
  let p3 := p2 ++
    (match truthyOpt containerPort with
     | some cp => (if p2.length > 0 then ["->"] else []) ++ [cp]
     | none => [])
  let protoBlocked :=
    match truthyOpt containerPort with
    | some cp => strIncludes cp "/"
    | none => false
  let p4 := p3 ++
    (match truthyOpt proto with
     | some pr => if !protoBlocked then ["/" ++ pr] else []
     | none => [])
  let entry := String.join p4
  if entry ≠ "" then entry else containerPort.getD ""

/-- `Object.entries` on a record (arrays enumerate their indices). -/
def entriesOfRecord (v : Js) : List (String × Js) :=
  match v with
  | .obj fields => fields
  | .arr xs => xs.enum.map (fun p => (toString p.1, p.2))
  | _ => []

/-- `formatPortBindings(value)`. -/
def formatPortBindings (value : Option Js) : Option String :=
  match value with
  | none => none
  | some .null => none
  | some (.str s) => some s
  | some v =>
    let entries1 : List String :=
      if jsIsRecord v then
        (entriesOfRecord v).foldl
          (fun acc kv =>
            let bindingArray := (asArray (some kv.2)).getD [kv.2]
            acc ++ bindingArray.foldl
              (fun acc2 binding =>
                if jsIsRecord binding then
                  let hostPort := firstString [jsGet binding "hostPort", jsGet binding "HostPort"]
                  let hostAddress := firstString
                    [jsGet binding "hostAddress", jsGet binding "HostAddress",
                     jsGet binding "hostIp", jsGet binding "HostIp"]
                  let proto := firstString
                    [jsGet binding "proto", jsGet binding "Proto",
                     jsGet binding "protocol", jsGet binding "Protocol"]
                  acc2 ++ [composePortEntry (some kv.1) hostAddress hostPort proto]
                else acc2)
              [])
          []
      else []
    let entries2 : List String :=
      match asArray (some v) with
      | some arrayBindings =>
        arrayBindings.foldl
          (fun acc binding =>
            if jsIsRecord binding then
              let containerPort := firstString
                [jsGet binding "containerPort", jsGet binding "ContainerPort",
                 jsGet binding "port", jsGet binding "Port"]
              let hostPort := firstString [jsGet binding "hostPort", jsGet binding "HostPort"]
              let hostAddress := firstString
                [jsGet binding "hostAddress", jsGet binding "HostAddress",
                 jsGet binding "hostIp", jsGet binding "HostIp"]
              let proto := firstString
                [jsGet binding "proto", jsGet binding "Proto",
                 jsGet binding "protocol", jsGet binding "Protocol"]
              acc ++ [composePortEntry containerPort hostAddress hostPort proto]
            else acc)
          []
      | none => []
    let filtered := (entries1 ++ entries2).filter (· ≠ "")
    if filtered.length > 0 then
      some (String.intercalate ", " (filtered.foldl setAdd []))
    else none

/-! ### Record extraction helpers -/

/-- `extractNetworkHostname(record)`. -/
def extractNetworkHostname (record : Js) : Option String :=
  let networks := firstArray
    [asArray (jsGet record "networks"), asArray (jsGet record "Networks"),
     asArray (getNestedValue (some record) ["configuration", "networks"])]
  match networks with
  | none => none
  | some entries =>
    entries.findSome? fun entry =>
      if jsIsRecord entry then
        match firstString [jsGet entry "hostname", jsGet entry "Hostname"] with
        | some h => some h
        | none =>
          match asRecord (jsGet entry "options") with
          | some opts => firstString [jsGet opts "hostname", jsGet opts "Hostname"]
          | none => none
      else none

/-- Result shape of `extractNetworkDetails`. -/
structure NetworkDetails where
  summary : Option String := none
  primaryIp : Option String := none
deriving DecidableEq, Repr

/-- `extractNetworkDetails(record)`. -/
def extractNetworkDetails (record : Js) : NetworkDetails :=
  let networks := firstArray
    [asArray (jsGet record "networks"), asArray (jsGet record "Networks"),
     asArray (getNestedValue (some record) ["configuration", "networks"])]
  match networks with
  | none => {}
  | some entries =>
    let acc := entries.foldl
      (fun (acc : List String × Option String) entry =>
        if jsIsRecord entry then
          let networkName := firstString [jsGet entry "network", jsGet entry "name", jsGet entry "id"]
          let address := firstString
            [jsGet entry "address", jsGet entry "ip", jsGet entry "ipAddress", jsGet entry "IPAddress"]
          let gateway := firstString [jsGet entry "gateway", jsGet entry "Gateway"]
          let parts :=
            (match networkName with | some n => [n] | none => []) ++
            (match address with | some a => [a] | none => []) ++
            (match gateway with | some g => ["gw=" ++ g] | none => [])
          let primaryIp :=
            match acc.2, address with
            | none, some a =>
              some (if strIncludes a "/" then (⟨(splitOnChar '/' a.data).headD []⟩ : String) else a)
            | p, _ => p
          (if parts.length > 0 then acc.1 ++ [String.intercalate " " parts] else acc.1, primaryIp)
        else acc)
      ([], none)
    { summary := if acc.1.length > 0 then some (String.intercalate ", " acc.1) else none
      primaryIp := acc.2 }

/-- `extractMountType(value)`. -/
def extractMountType (value : Option Js) : Option String :=
  match value with
  | some (.str s) => if s ≠ "" then some s else none
  | some (.obj fields) => fields.head?.map (fun p => p.1)
  | some (.arr xs) => if xs.isEmpty then none else some "0"
  | _ => none

/-- `extractVolumeMounts(record)`. -/
def extractVolumeMounts (record : Js) : Option String :=
  let mounts := firstArray
    [asArray (jsGet record "mounts"), asArray (jsGet record "Mounts"),
     asArray (getNestedValue (some record) ["configuration", "mounts"])]
  match mounts with
  | none => none
  | some ms =>
    if ms.isEmpty then none
    else
      let entries := ms.foldl
        (fun acc mount =>
          if jsIsRecord mount then
            let source := firstString [jsGet mount "source", jsGet mount "Source", jsGet mount "src"]
            let destination := firstString
              [jsGet mount "destination", jsGet mount "Destination",
               jsGet mount "target", jsGet mount "Target"]
            let mountType := extractMountType (jsGet mount "type")
            let parts :=
              (match mountType with | some t => ["[" ++ t ++ "]"] | none => []) ++
              (match source, destination with
               | some s, some d => [s ++ " -> " ++ d]
               | none, some d => [d]
               | some s, none => [s]
               | none, none => [])
            if parts.length > 0 then acc ++ [String.intercalate " " parts] else acc
          else acc)
        []
      if entries.length > 0 then some (String.intercalate ", " entries) else none

/-- `extractImageReference(record)`. -/
def extractImageReference (record : Js) : Option String :=
  let image := firstRecord
    [asRecord (jsGet record "image"), asRecord (jsGet record "Image"),
     asRecord (getNestedValue (some record) ["configuration", "image"])]
  match image with
  | none => none
  | some image =>
    match firstString
      [jsGet image "reference", jsGet image "ref", jsGet image "name",
       jsGet image "image", jsGet image "RepoTags"] with
    | some reference => some reference
    | none =>
      let descriptor := asRecord (jsGet image "descriptor")
      let annotations := asRecord (descriptor.bind (fun d => jsGet d "annotations"))
      let annotatedName := firstString
        [annotations.bind (fun a => jsGet a "io.containerd.image.name"),
         annotations.bind (fun a => jsGet a "com.apple.containerization.image.name")]
      let annotatedTag := firstString
        [annotations.bind (fun a => jsGet a "org.opencontainers.image.ref.name")]
      match annotatedName, annotatedTag with
      | some n, some t => some (n ++ ":" ++ t)
      | some n, none => some n
      | none, _ => firstString [descriptor.bind (fun d => jsGet d "digest")]

/-- `extractCreatedAt(record)`. -/
def extractCreatedAt (record : Js) : Option String :=
  let image := firstRecord
    [asRecord (jsGet record "image"), asRecord (jsGet record "Image"),
     asRecord (getNestedValue (some record) ["configuration", "image"])]
  let descriptor := asRecord (image.bind (fun i => jsGet i "descriptor"))
  let annotations := asRecord (descriptor.bind (fun d => jsGet d "annotations"))
  firstString
    [annotations.bind (fun a => jsGet a "org.opencontainers.image.created"),
     annotations.bind (fun a => jsGet a "com.apple.containerization.created")]

/-- `ContainerSummary` from containerCli.ts. -/
structure ContainerSummary where
  id : String
  name : String
  image : String
  status : String
  ports : Option String := none
  ipAddress : Option String := none
  createdAt : Option String := none
  os : Option String := none
  arch : Option String := none
  address : Option String := none
  volumes : Option String := none
  cpus : Option String := none
  memory : Option String := none
deriving DecidableEq, Repr

/-- `mapContainerRecord(record, index)`. -/
def mapContainerRecord (record : Js) (index : Nat) : ContainerSummary :=
  let id := (firstString
    [jsGet record "id", jsGet record "ID", jsGet record "identifier", jsGet record "Identifier",
     jsGet record "containerId", jsGet record "containerID", jsGet record "uuid", jsGet record "UUID",
     (getNestedString (some record) ["configuration", "id"]).map Js.str,
     (getNestedString (some record) ["configuration", "identifier"]).map Js.str,
     (getNestedString (some record) ["metadata", "id"]).map Js.str,
     (getNestedString (some record) ["metadata", "identifier"]).map Js.str,
     (getNestedString (some record) ["metadata", "uuid"]).map Js.str,
     (getNestedString (some record) ["container", "id"]).map Js.str]).getD
    ("container-" ++ toString index)
  let name := (firstString
    [jsGet record "name", jsGet record "Name", jsGet record "NAMES",
     jsGet record "displayName", jsGet record "hostname",
     (getNestedString (some record) ["metadata", "name"]).map Js.str,
     (getNestedString (some record) ["config", "hostname"]).map Js.str,
     (extractNetworkHostname record).map Js.str]).getD id
  let status := (firstString
    [jsGet record "status", jsGet record "Status", jsGet record "state", jsGet record "State",
     (getNestedString (some record) ["lifecycle", "state"]).map Js.str,
     (getNestedString (some record) ["runtime", "status"]).map Js.str]).getD "unknown"
  let imageReference :=
    match firstString
      [jsGet record "image", jsGet record "Image", jsGet record "imageRef",
       jsGet record "imageReference", jsGet record "reference",
       (getNestedString (some record) ["configuration", "image", "reference"]).map Js.str] with
    | some r => some r
    | none => extractImageReference record
  let imageDetails := parseImageReference imageReference none
  let ports := formatPortBindings (firstNonNullish
    [jsGet record "ports", jsGet record "Ports", jsGet record "portBindings",
     jsGet record "PortBindings", jsGet record "exposedPorts", jsGet record "ExposedPorts",
     getNestedValue (some record) ["network", "ports"],
     getNestedValue (some record) ["networkSettings", "ports"]])
  let networkDetails := extractNetworkDetails record
  let volumes := extractVolumeMounts record
  let createdAt := firstString
    [jsGet record "createdAt", jsGet record "created", jsGet record "CreatedAt",
     jsGet record "Created", (extractCreatedAt record).map Js.str]
  let cpus := firstString
    [jsGet record "cpus", jsGet record "cpu", jsGet record "CPUS", jsGet record "CPU",
     getNestedValue (some record) ["resources", "cpus"],
     getNestedValue (some record) ["resources", "cpu"],
     getNestedValue (some record) ["limits", "cpus"],
     getNestedValue (some record) ["limits", "cpu"]]
  let memoryRaw := firstDefined
    [jsGet record "memory", jsGet record "Memory",
     getNestedValue (some record) ["resources", "memory"],
     getNestedValue (some record) ["limits", "memory"]]
  let memory := formatMaybeBytes memoryRaw
  let os := firstString
    [jsGet record "os", jsGet record "OS", jsGet record "operatingSystem",
     jsGet record "OperatingSystem",
     getNestedValue (some record) ["platform", "os"],
     getNestedValue (some record) ["Platform", "OS"]]
  let arch := firstString
    [jsGet record "arch", jsGet record "ARCH", jsGet record "architecture",
     jsGet record "Architecture",
     getNestedValue (some record) ["platform", "architecture"],
     getNestedValue (some record) ["Platform", "Architecture"]]
  { id := id
    name := name
    image := (imageDetails.full).getD (imageReference.getD "unknown")
    status := status
    ports := ports
    ipAddress := networkDetails.primaryIp
    createdAt := createdAt
    os := os
    arch := arch
    address := networkDetails.summary
    volumes := volumes
    cpus := cpus
    memory := memory }

/-! ### `safeJsonParse`, `normalizeJsonRecords`, `listContainers`

`JSON.parse` itself is an external library routine, modelled by the
`parse` oracle of `CliEnv`; everything layered on it is embedded from the
source. -/

/-- The environment of one `listContainers` call: the outcome of each
`execFile` spawn and the `JSON.parse` oracle. -/
structure CliEnv where
  spawn : List String → SpawnResult
  parse : String → Option Js

/-- `safeJsonParse(value)`: whole-payload parse first, then NDJSON (every
non-blank line must parse, else the attempt fails as a whole). -/
def safeJsonParse (parse : String → Option Js) (value : String) : Option Js :=
  let trimmed := jsTrim value
  if trimmed = "" then none
  else
    match parse trimmed with
    | some v => some v
    | none =>
      let lines :=
        ((splitOnChar '\n' trimmed.data).map (fun l => jsTrim ⟨l⟩)).filter (· ≠ "")
      if lines.isEmpty then none
      else
        match lines.mapM parse with
        | none => none
        | some nd => if nd.isEmpty then none else some (.arr nd)

/-- `normalizeJsonRecords(raw, arrayProperty)`: a top-level array, or a
record with an array under the named property; elements that are not
records are dropped. -/
def normalizeJsonRecords (raw : Js) (arrayProperty : String) : Option (List Js) :=
  match raw with
  | .arr xs => some (xs.filterMap (fun item => asRecord (some item)))
  | _ =>
    if jsIsRecord raw then
      match jsGet raw arrayProperty with
      | some (.arr xs) => some (xs.filterMap (fun item => asRecord (some item)))
      | _ => none
    else none

/-- The command spellings `listContainers` tries in order. -/
def containerListVariants : List (List String) :=
  [["ls", "-a", "--format", "json"],
   ["ls", "-a"],
   ["list", "--format", "json"],
   ["list", "-a"],
   ["list"]]

/-- How one command variant fares: exec outcome, stdout emptiness, parse
and shape of the payload (the branch conditions of the loop body of
`listContainers`). -/
inductive VariantClass where
  | throws
  | emptyOut
  | parseFail
  | noArray
  | success (records : List Js)

/-- Classify one variant under the environment. -/
def classifyVariant (env : CliEnv) (args : List String) : VariantClass :=
  match cliExec (env.spawn args) with
  | .error _ => .throws
  | .ok out =>
    if jsTrim out.stdout = "" then .emptyOut
    else
      match safeJsonParse env.parse out.stdout with
      | none => .parseFail
      | some parsed =>
        match normalizeJsonRecords parsed "containers" with
        | none => .noArray
        | some records => .success records

/-- A variant on which the loop moves to the next spelling. -/
def VariantClass.isContinueB : VariantClass → Bool
  | .throws => true
  | .parseFail => true
  | .noArray => true
  | _ => false

/-- The `for` loop of `listContainers`: an exec throw, a parse failure or
a missing container array move to the next variant; empty stdout returns
no containers immediately; a parsed variant returns its mapped records.
After all variants, `mockContainers()` returns `[]`.  The second
component records the variants attempted. -/
def listContainersGo (env : CliEnv) :
    List (List String) → List (List String) →
    List ContainerSummary × List (List String)
  | [], attempted => ([], attempted)
  | args :: rest, attempted =>
    match classifyVariant env args with
    | .throws => listContainersGo env rest (attempted ++ [args])
    | .emptyOut => ([], attempted ++ [args])
    | .parseFail => listContainersGo env rest (attempted ++ [args])
    | .noArray => listContainersGo env rest (attempted ++ [args])
    | .success records =>
      ((records.enum.map (fun p => mapContainerRecord p.2 p.1)), attempted ++ [args])

/-- `listContainers()`. -/
def listContainers (env : CliEnv) : List ContainerSummary × List (List String) :=
  listContainersGo env containerListVariants []


/-! ## Supporting lemmas -/

theorem setAdd_mem_self (s : List String) (x : String) : x ∈ setAdd s x := by
  by_cases hx : x ∈ s
  · simpa [setAdd, List.contains, hx] using hx
  · simp [setAdd, List.contains, hx]

theorem setAdd_mem_mono {s : List String} {y : String} (x : String)
    (h : y ∈ s) : y ∈ setAdd s x := by
  by_cases hx : x ∈ s
  · simpa [setAdd, List.contains, hx] using h
  · simp [setAdd, List.contains, hx, h]

theorem setAdd_nodup {s : List String} (x : String) (h : s.Nodup) :
    (setAdd s x).Nodup := by
  by_cases hx : x ∈ s
  · simpa [setAdd, List.contains, hx] using h
  · simp [setAdd, List.contains, hx, List.nodup_append, h]

theorem resolvePortsGo_mem_mono {l : List PortEntry} {acc : List String}
    {q : String} (h : q ∈ acc) : q ∈ resolvePortsGo l acc := by
  induction l generalizing acc with
  | nil => simpa [resolvePortsGo] using h
  | cons e rest ih =>
    rw [resolvePortsGo]
    cases hp : portOf e with
    | none => exact ih h
    | some p => exact ih (setAdd_mem_mono p h)

theorem resolvePortsGo_adds {l : List PortEntry} {e : PortEntry} {p : String}
    (he : e ∈ l) (hp : portOf e = some p) (acc : List String) :
    p ∈ resolvePortsGo l acc := by
  induction l generalizing acc with
  | nil => cases he
  | cons a rest ih =>
    rw [resolvePortsGo]
    rcases List.mem_cons.mp he with h | h
    · subst h
      rw [hp]
      exact resolvePortsGo_mem_mono (setAdd_mem_self acc p)
    · cases portOf a with
      | none => exact ih h _
      | some q => exact ih h _

theorem resolvePortsGo_nodup {l : List PortEntry} {acc : List String}
    (h : acc.Nodup) : (resolvePortsGo l acc).Nodup := by
  induction l generalizing acc with
  | nil => simpa [resolvePortsGo] using h
  | cons e rest ih =>
    rw [resolvePortsGo]
    cases portOf e with
    | none => exact ih h
    | some p => exact ih (setAdd_nodup p h)

theorem splitOnChar_ne_nil (sep : Char) (l : List Char) :
    splitOnChar sep l ≠ [] := by
  cases l with
  | nil => simp [splitOnChar]
  | cons c rest =>
    rw [splitOnChar]
    by_cases hc : (c == sep) = true
    · simp [hc]
    · simp only [hc]
      cases hs : splitOnChar sep rest <;> simp

theorem splitOnChar_length_one {sep : Char} {l : List Char}
    (h : (splitOnChar sep l).length = 1) : splitOnChar sep l = [l] := by
  induction l with
  | nil => simp [splitOnChar]
  | cons c rest ih =>
    rw [splitOnChar] at h ⊢
    by_cases hc : (c == sep) = true
    · exfalso
      rw [if_pos hc] at h
      have := splitOnChar_ne_nil sep rest
      cases hs : splitOnChar sep rest with
      | nil => exact this hs
      | cons g gs => rw [hs] at h; simp at h
    · rw [if_neg hc] at h ⊢
      cases hs : splitOnChar sep rest with
      | nil => exact absurd hs (splitOnChar_ne_nil sep rest)
      | cons g gs =>
        rw [hs] at h
        simp only [List.length_cons] at h
        have hlen : (splitOnChar sep rest).length = 1 := by
          rw [hs]; simp only [List.length_cons]; omega
        have := ih hlen
        rw [hs] at this
        have hg : g = rest ∧ gs = [] := by
          cases this; exact ⟨rfl, rfl⟩
        simp [hg.1, hg.2]

/-! ## Claims C7 and C8 -/

/-- C7: the process-runner `exec` resolves with trimmed stdout/stderr on a
zero exit status (never throwing on non-empty stderr alone); a launch
failure with `ENOENT` yields the binary-not-found error class, `EACCES`
the permission-denied class, and any other failure the command-failed
class whose message is the trimmed stderr when non-empty and otherwise
the underlying OS error message. -/
theorem claim_C7_exec_contract :
    (∀ out err : String, cliExec (.success out err) = .ok ⟨jsTrim out, jsTrim err⟩) ∧
    (∀ msg st : Option String, cliExec (.failure (some "ENOENT") msg st) =
        .error ⟨"container CLI not found on PATH", .cliNotFound⟩) ∧
    (∀ msg st : Option String, cliExec (.failure (some "EACCES") msg st) =
        .error ⟨"Permission denied while executing container CLI", .permissionDenied⟩) ∧
    (∀ (code msg : Option String) (st : String),
        code ≠ some "ENOENT" → code ≠ some "EACCES" →
        cliExec (.failure code msg (some st)) =
          .error ⟨if jsTrim st ≠ "" then jsTrim st else msg.getD "Unknown CLI error",
                  .commandFailed⟩) ∧
    (∀ (code msg : Option String),
        code ≠ some "ENOENT" → code ≠ some "EACCES" →
        cliExec (.failure code msg none) =
          .error ⟨msg.getD "Unknown CLI error", .commandFailed⟩) := by
  refine ⟨fun out err => rfl, fun msg st => rfl, fun msg st => rfl, ?_, ?_⟩
  · intro code msg st h1 h2
    simp only [cliExec, normalizeError, if_neg h1, if_neg h2, Option.map_some']
  · intro code msg h1 h2
    simp only [cliExec, normalizeError, if_neg h1, if_neg h2, Option.map_none']

/-- Witness for C7 at concrete spawn outcomes. -/
theorem claim_C7_exec_contract_witness :
    cliExec (.success "ok out" " warn ") = .ok ⟨"ok out", "warn"⟩ ∧
    cliExec (.failure (some "1") (some "boom") (some " stderr text ")) =
      .error ⟨"stderr text", .commandFailed⟩ ∧
    cliExec (.failure (some "1") (some "boom") (some "   ")) =
      .error ⟨"boom", .commandFailed⟩ := by
  refine ⟨?_, ?_, ?_⟩
  · have h := claim_C7_exec_contract.1 "ok out" " warn "
    exact h.trans rfl
  · have h := claim_C7_exec_contract.2.2.2.1 (some "1") (some "boom") " stderr text "
      (by decide) (by decide)
    exact h.trans rfl
  · have h := claim_C7_exec_contract.2.2.2.1 (some "1") (some "boom") "   "
      (by decide) (by decide)
    exact h.trans rfl

/-- C8: `resolvePorts` returns a duplicate-free collection; a numeric
entry `N` and a single-segment string entry `"N"` contribute `"N:N"`, a
2- or 3-segment colon-separated entry is kept as written, and the
documented example holds. -/
theorem claim_C8_resolvePorts (l : List PortEntry) :
    (resolvePorts (some l)).Nodup ∧
    (∀ n : Int, PortEntry.num n ∈ l →
        (toString n ++ ":" ++ toString n) ∈ resolvePorts (some l)) ∧
    (∀ s : String, PortEntry.str s ∈ l → jsTrim s = s → s ≠ "" →
        (((splitOnChar ':' s.data).length = 1 →
            (s ++ ":" ++ s) ∈ resolvePorts (some l)) ∧
         ((splitOnChar ':' s.data).length = 2 ∨ (splitOnChar ':' s.data).length = 3 →
            s ∈ resolvePorts (some l)))) ∧
    resolvePorts (some [PortEntry.num 8080, PortEntry.str "2222:22",
        PortEntry.str "9000:9000/tcp"]) = ["8080:8080", "2222:22", "9000:9000/tcp"] := by
  refine ⟨resolvePortsGo_nodup List.nodup_nil, ?_, ?_, by decide⟩
  · intro n hn
    exact resolvePortsGo_adds hn rfl []
  · intro s hs htrim hne
    constructor
    · intro hlen
      have hsplit := splitOnChar_length_one hlen
      have hp : portOf (.str s) = some (s ++ ":" ++ s) := by
        simp only [portOf, htrim]
        rw [if_neg hne]
        simp only [hsplit, List.length_cons, List.length_nil, List.headD_cons]
        rw [if_pos trivial]
      exact resolvePortsGo_adds hs hp []
    · intro hlen
      have hp : portOf (.str s) = some s := by
        simp only [portOf, htrim]
        rw [if_neg hne]
        rw [if_neg (by omega), if_pos hlen]
      exact resolvePortsGo_adds hs hp []

/-- Witness for C8 at concrete entry lists. -/
theorem claim_C8_resolvePorts_witness :
    (("2222:22" : String) ∈ resolvePorts (some [PortEntry.str "2222:22"])) ∧
    (("8080:8080" : String) ∈ resolvePorts (some [PortEntry.num 8080])) := by
  constructor
  · exact ((claim_C8_resolvePorts [PortEntry.str "2222:22"]).2.2.1 "2222:22"
      (by decide) (by decide) (by decide)).2 (Or.inl (by decide))
  · exact (claim_C8_resolvePorts [PortEntry.num 8080]).2.1 8080 (by decide)

/-! ## Claim C6 (`parseRunArgs`) -/

/-- The `--workdir value` pair re-appended to `additional` at the end of
`parseRunArgs` when a workdir was extracted. -/
def workdirTail (r : RunArgsParseResult) : List String :=
  match r.workdir with
  | some w => ["--workdir", w]
  | none => []

/-- The `--user value` pair re-appended to `additional` at the end of
`parseRunArgs` when a user was extracted. -/
def userTail (r : RunArgsParseResult) : List String :=
  match r.user with
  | some u => ["--user", u]
  | none => []

/-- The bare recognised flag spellings (the `case` labels of the
`switch`). -/
def bareFlag (arg : String) : Bool :=
  arg = "--cpus" || arg = "--memory" || arg = "--user" || arg = "-u" ||
    arg = "--workdir" || arg = "--cwd" || arg = "-w"

/-- Whether an action pushes the token onto `additional`. -/
def isPushAction : RunArgsAction → Bool
  | .push => true
  | _ => false

theorem parseRunArgsFuel_additional (fuel : Nat) :
    ∀ (args : List String) (acc : RunArgsParseResult),
    ∃ extra, (parseRunArgsFuel fuel args acc).additional = acc.additional ++ extra ∧
      extra.Sublist args := by
  induction fuel with
  | zero =>
    intro args acc
    exact ⟨[], by simp [parseRunArgsFuel], List.nil_sublist _⟩
  | succ fuel ih =>
    intro args acc
    cases args with
    | nil => exact ⟨[], by simp [parseRunArgsFuel], List.nil_sublist _⟩
    | cons arg rest =>
      cases hc : classifyArg arg rest.head? with
      | setCpus q k =>
        have hstep : parseRunArgsFuel (fuel + 1) (arg :: rest) acc =
            parseRunArgsFuel fuel (rest.drop k) { acc with cpus := some q } := by
          rw [parseRunArgsFuel]; simp only [hc]
        obtain ⟨extra, he, hs⟩ := ih (rest.drop k) { acc with cpus := some q }
        exact ⟨extra, by rw [hstep]; exact he,
          (hs.trans (List.drop_sublist k rest)).trans (List.sublist_cons_self arg rest)⟩
      | setMemory v k =>
        have hstep : parseRunArgsFuel (fuel + 1) (arg :: rest) acc =
            parseRunArgsFuel fuel (rest.drop k) { acc with memory := some v } := by
          rw [parseRunArgsFuel]; simp only [hc]
        obtain ⟨extra, he, hs⟩ := ih (rest.drop k) { acc with memory := some v }
        exact ⟨extra, by rw [hstep]; exact he,
          (hs.trans (List.drop_sublist k rest)).trans (List.sublist_cons_self arg rest)⟩
      | setUser v k =>
        have hstep : parseRunArgsFuel (fuel + 1) (arg :: rest) acc =
            parseRunArgsFuel fuel (rest.drop k) { acc with user := some v } := by
          rw [parseRunArgsFuel]; simp only [hc]
        obtain ⟨extra, he, hs⟩ := ih (rest.drop k) { acc with user := some v }
        exact ⟨extra, by rw [hstep]; exact he,
          (hs.trans (List.drop_sublist k rest)).trans (List.sublist_cons_self arg rest)⟩
      | setWorkdir v k =>
        have hstep : parseRunArgsFuel (fuel + 1) (arg :: rest) acc =
            parseRunArgsFuel fuel (rest.drop k) { acc with workdir := some v } := by
          rw [parseRunArgsFuel]; simp only [hc]
        obtain ⟨extra, he, hs⟩ := ih (rest.drop k) { acc with workdir := some v }
        exact ⟨extra, by rw [hstep]; exact he,
          (hs.trans (List.drop_sublist k rest)).trans (List.sublist_cons_self arg rest)⟩
      | drop =>
        have hstep : parseRunArgsFuel (fuel + 1) (arg :: rest) acc =
            parseRunArgsFuel fuel rest acc := by
          rw [parseRunArgsFuel]; simp only [hc]
        obtain ⟨extra, he, hs⟩ := ih rest acc
        exact ⟨extra, by rw [hstep]; exact he,
          hs.trans (List.sublist_cons_self arg rest)⟩
      | push =>
        have hstep : parseRunArgsFuel (fuel + 1) (arg :: rest) acc =
            parseRunArgsFuel fuel rest { acc with additional := acc.additional ++ [arg] } := by
          rw [parseRunArgsFuel]; simp only [hc]
        obtain ⟨extra, he, hs⟩ := ih rest { acc with additional := acc.additional ++ [arg] }
        refine ⟨arg :: extra, ?_, List.Sublist.cons₂ arg hs⟩
        rw [hstep, he]
        simp

theorem parseRunArgsGo_additional (args : List String) (acc : RunArgsParseResult) :
    ∃ extra, (parseRunArgsGo args acc).additional = acc.additional ++ extra ∧
      extra.Sublist args :=
  parseRunArgsFuel_additional args.length args acc

theorem parseRunArgs_additional_eq (args : List String) :
    (parseRunArgs args).additional =
      (parseRunArgsGo args {}).additional ++ workdirTail (parseRunArgsGo args {}) ++
        userTail (parseRunArgsGo args {}) := by
  unfold parseRunArgs workdirTail userTail
  cases h1 : (parseRunArgsGo args ({} : RunArgsParseResult)).workdir <;>
    cases h2 : (parseRunArgsGo args ({} : RunArgsParseResult)).user <;>
      simp [h1, h2]

theorem afterFirstEq_isSome_of_startsWith {p l : List Char}
    (hp : p.contains '=' = true) (h : listStartsWith p l = true) :
    (afterFirstEq l).isSome := by
  induction p generalizing l with
  | nil => simp at hp
  | cons c ps ih =>
    cases l with
    | nil => simp [listStartsWith] at h
    | cons d ls =>
      simp only [listStartsWith, Bool.and_eq_true, beq_iff_eq] at h
      obtain ⟨hcd, hrest⟩ := h
      subst hcd
      rw [afterFirstEq]
      by_cases hc : c = '='
      · rw [if_pos hc]; simp
      · rw [if_neg hc]
        refine ih ?_ hrest
        simp only [List.contains_cons] at hp
        rcases Bool.or_eq_true_iff.mp hp with h | h
        · exact absurd (beq_iff_eq.mp h).symm hc
        · exact h

theorem takeValue_indep {arg : String} (h : (afterFirstEq arg.data).isSome)
    (next : Option String) : takeValue arg next = takeValue arg none := by
  unfold takeValue
  cases ha : afterFirstEq arg.data with
  | some v => rfl
  | none => rw [ha] at h; simp at h

theorem classifyArg_next_indep {arg : String} (hb : bareFlag arg = false)
    (next : Option String) : classifyArg arg next = classifyArg arg none := by
  simp only [bareFlag, Bool.or_eq_false_iff, decide_eq_false_iff_not] at hb
  obtain ⟨⟨⟨⟨⟨⟨h1, h2⟩, h3⟩, h4⟩, h5⟩, h6⟩, h7⟩ := hb
  simp only [classifyArg, eq_false h1, eq_false h2, eq_false h3, eq_false h4,
    eq_false h5, eq_false h6, eq_false h7, false_or, or_self, if_false]
  by_cases hef : eqFormFlag arg = true
  · rw [if_pos hef, if_pos hef]
    have hsome : (afterFirstEq arg.data).isSome := by
      simp only [eqFormFlag, Bool.or_eq_true] at hef
      rcases hef with ((((h | h) | h) | h) | h) <;>
        exact afterFirstEq_isSome_of_startsWith (by decide) h
    rw [takeValue_indep hsome next]
  · rw [if_neg hef, if_neg hef]

theorem classifyArg_k_eq_zero {arg : String} (hb : bareFlag arg = false) :
    (∀ q k, classifyArg arg none = .setCpus q k → k = 0) ∧
    (∀ v k, classifyArg arg none = .setMemory v k → k = 0) ∧
    (∀ v k, classifyArg arg none = .setUser v k → k = 0) ∧
    (∀ v k, classifyArg arg none = .setWorkdir v k → k = 0) := by
  simp only [bareFlag, Bool.or_eq_false_iff, decide_eq_false_iff_not] at hb
  obtain ⟨⟨⟨⟨⟨⟨h1, h2⟩, h3⟩, h4⟩, h5⟩, h6⟩, h7⟩ := hb
  simp only [classifyArg, eq_false h1, eq_false h2, eq_false h3, eq_false h4,
    eq_false h5, eq_false h6, eq_false h7, false_or, or_self, if_false]
  by_cases hef : eqFormFlag arg = true
  · rw [if_pos hef]
    refine ⟨?_, ?_, ?_, ?_⟩ <;> intro v k h <;>
      (repeat' split at h) <;> simp_all
  · rw [if_neg hef]
    refine ⟨?_, ?_, ?_, ?_⟩ <;> intro v k h <;> cases h

theorem parseRunArgsFuel_no_bare (fuel : Nat) :
    ∀ (args : List String) (acc : RunArgsParseResult),
    args.length ≤ fuel → (∀ a ∈ args, bareFlag a = false) →
    (parseRunArgsFuel fuel args acc).additional =
      acc.additional ++ args.filter (fun a => isPushAction (classifyArg a none)) := by
  induction fuel with
  | zero =>
    intro args acc hf _h
    have hargs : args = [] := List.length_eq_zero.mp (Nat.le_zero.mp hf)
    subst hargs
    simp [parseRunArgsFuel]
  | succ fuel ih =>
    intro args acc hf h
    cases args with
    | nil => simp [parseRunArgsFuel]
    | cons arg rest =>
      have hb : bareFlag arg = false := h arg (by simp)
      have hrest : ∀ a ∈ rest, bareFlag a = false := fun a ha => h a (by simp [ha])
      have hfr : rest.length ≤ fuel := by
        simp only [List.length_cons] at hf; omega
      cases hc : classifyArg arg none with
      | setCpus q k =>
        have hk : k = 0 := (classifyArg_k_eq_zero hb).1 q k hc
        subst hk
        have hstep : parseRunArgsFuel (fuel + 1) (arg :: rest) acc =
            parseRunArgsFuel fuel rest { acc with cpus := some q } := by
          rw [parseRunArgsFuel]
          simp only [classifyArg_next_indep hb rest.head?, hc, List.drop_zero]
        rw [hstep, ih rest _ hfr hrest]
        simp [List.filter_cons, hc, isPushAction]
      | setMemory v k =>
        have hk : k = 0 := (classifyArg_k_eq_zero hb).2.1 v k hc
        subst hk
        have hstep : parseRunArgsFuel (fuel + 1) (arg :: rest) acc =
            parseRunArgsFuel fuel rest { acc with memory := some v } := by
          rw [parseRunArgsFuel]
          simp only [classifyArg_next_indep hb rest.head?, hc, List.drop_zero]
        rw [hstep, ih rest _ hfr hrest]
        simp [List.filter_cons, hc, isPushAction]
      | setUser v k =>
        have hk : k = 0 := (classifyArg_k_eq_zero hb).2.2.1 v k hc
        subst hk
        have hstep : parseRunArgsFuel (fuel + 1) (arg :: rest) acc =
            parseRunArgsFuel fuel rest { acc with user := some v } := by
          rw [parseRunArgsFuel]
          simp only [classifyArg_next_indep hb rest.head?, hc, List.drop_zero]
        rw [hstep, ih rest _ hfr hrest]
        simp [List.filter_cons, hc, isPushAction]
      | setWorkdir v k =>
        have hk : k = 0 := (classifyArg_k_eq_zero hb).2.2.2 v k hc
        subst hk
        have hstep : parseRunArgsFuel (fuel + 1) (arg :: rest) acc =
            parseRunArgsFuel fuel rest { acc with workdir := some v } := by
          rw [parseRunArgsFuel]
          simp only [classifyArg_next_indep hb rest.head?, hc, List.drop_zero]
        rw [hstep, ih rest _ hfr hrest]
        simp [List.filter_cons, hc, isPushAction]
      | drop =>
        have hstep : parseRunArgsFuel (fuel + 1) (arg :: rest) acc =
            parseRunArgsFuel fuel rest acc := by
          rw [parseRunArgsFuel]
          simp only [classifyArg_next_indep hb rest.head?, hc]
        rw [hstep, ih rest _ hfr hrest]
        simp [List.filter_cons, hc, isPushAction]
      | push =>
        have hstep : parseRunArgsFuel (fuel + 1) (arg :: rest) acc =
            parseRunArgsFuel fuel rest { acc with additional := acc.additional ++ [arg] } := by
          rw [parseRunArgsFuel]
          simp only [classifyArg_next_indep hb rest.head?, hc]
        rw [hstep, ih rest _ hfr hrest]
        simp [List.filter_cons, hc, isPushAction]

theorem parseRunArgsGo_no_bare (args : List String) (acc : RunArgsParseResult)
    (h : ∀ a ∈ args, bareFlag a = false) :
    (parseRunArgsGo args acc).additional =
      acc.additional ++ args.filter (fun a => isPushAction (classifyArg a none)) :=
  parseRunArgsFuel_no_bare args.length args acc (Nat.le_refl _) h

/-- C6 counterexample: `--user value` is extracted into the typed `user`
field but is *not* removed from `additional` — the normalised pair is
re-appended, so the claim's removal property fails for `--user`. -/
theorem claim_C6_counterexample :
    (parseRunArgs ["--user", "alice"]).user = some "alice" ∧
    (parseRunArgs ["--user", "alice"]).additional = ["--user", "alice"] ∧
    (parseRunArgs ["--user", "alice"]).additional ≠ [] := by
  refine ⟨rfl, rfl, by decide⟩

/-- C6 (amended): `parseRunArgs` extracts the recognised flags into typed
fields; `--cpus`/`--memory` tokens are removed from `additional`, but an
extracted workdir and user are re-appended at the end of `additional` in
normalised form (`--workdir value` then `--user value`).  Apart from
those appended pairs, `additional` is an order-preserving subsequence of
the input, and on inputs without a bare recognised flag it is exactly the
input minus the tokens extracted through their `--flag=value` forms.  The
documented example holds. -/
theorem claim_C6_amended :
    (parseRunArgs ["--cpus", "2", "--memory=512M", "--foo", "bar"] =
      { cpus := some (JsNum.finite 2), memory := some "512M", user := none,
        workdir := none, additional := ["--foo", "bar"] }) ∧
    (∀ args : List String, ∃ base : List String,
        base.Sublist args ∧
        (parseRunArgs args).additional =
          base ++ workdirTail (parseRunArgsGo args {}) ++
            userTail (parseRunArgsGo args {})) ∧
    (∀ args : List String, (∀ a ∈ args, bareFlag a = false) →
        (parseRunArgs args).additional =
          args.filter (fun a => isPushAction (classifyArg a none)) ++
            workdirTail (parseRunArgsGo args {}) ++
            userTail (parseRunArgsGo args {})) := by
  refine ⟨by with_unfolding_all decide, ?_, ?_⟩
  · intro args
    obtain ⟨extra, he, hs⟩ := parseRunArgsGo_additional args {}
    refine ⟨extra, hs, ?_⟩
    rw [parseRunArgs_additional_eq, he]
    rfl
  · intro args h
    rw [parseRunArgs_additional_eq, parseRunArgsGo_no_bare args {} h]
    rfl

/-- Witness for C6 (amended) on a concrete token list. -/
theorem claim_C6_amended_witness :
    (parseRunArgs ["--foo", "--memory=1G"]).additional = ["--foo"] := by
  have h := claim_C6_amended.2.2 ["--foo", "--memory=1G"] (by decide)
  exact h.trans (by with_unfolding_all decide)

/-! ## Claim C9 (`stripJsonComments`) -/

/-- Whether the two-character pattern `a b` occurs in a list. -/
def hasPair (a b : Char) : List Char → Bool
  | x :: y :: rest => (x == a && y == b) || hasPair a b (y :: rest)
  | _ => false

theorem hasPair_cons_false {a b c : Char} {cs : List Char}
    (h : hasPair a b (c :: cs) = false) : hasPair a b cs = false := by
  cases cs with
  | nil => rfl
  | cons d rest =>
    rw [hasPair] at h
    exact (Bool.or_eq_false_iff.mp h).2

theorem hasPair_head_false {a b : Char} {d : Char} {rest : List Char}
    (h : hasPair a b (a :: d :: rest) = false) : ¬ d = b := by
  rw [hasPair] at h
  intro hd
  subst hd
  simp at h

theorem stripBlockFuel_nil (f : Nat) : stripBlockFuel f [] = [] := by
  cases f <;> rfl

theorem stripBlockFuel_irrel :
    ∀ (f1 : Nat) (l : List Char) (f2 : Nat), l.length ≤ f1 → l.length ≤ f2 →
      stripBlockFuel f1 l = stripBlockFuel f2 l := by
  intro f1
  induction f1 with
  | zero =>
    intro l f2 h1 _h2
    have : l = [] := List.length_eq_zero.mp (Nat.le_zero.mp h1)
    subst this
    rw [stripBlockFuel_nil, stripBlockFuel_nil]
  | succ f ih =>
    intro l f2 h1 h2
    cases l with
    | nil => rw [stripBlockFuel_nil, stripBlockFuel_nil]
    | cons c cs =>
      cases f2 with
      | zero => simp at h2
      | succ f2 =>
        rw [stripBlockFuel, stripBlockFuel]
        by_cases hc : c = '/' ∧ cs.head? = some '*'
        · rw [if_pos hc, if_pos hc]
          cases hd : dropThroughClose cs.tail with
          | none => rfl
          | some r =>
            have hr := dropThroughClose_length hd
            have ht := List.length_tail cs
            simp only [List.length_cons] at h1 h2
            exact ih r f2 (by omega) (by omega)
        · rw [if_neg hc, if_neg hc]
          simp only [List.length_cons] at h1 h2
          rw [ih cs f2 (by omega) (by omega)]

theorem dropThroughClose_skip {t : List Char} (u : List Char)
    (h : hasPair '*' '/' t = false) :
    dropThroughClose (t ++ '*' :: '/' :: u) = some u := by
  induction t with
  | nil =>
    have hstep : dropThroughClose ([] ++ '*' :: '/' :: u) =
        if ('*' : Char) = '*' ∧ ('/' :: u).head? = some '/' then some (('/' :: u).tail)
        else dropThroughClose ('/' :: u) := by
      rw [dropThroughClose.eq_def]
      rfl
    rw [hstep, if_pos ⟨rfl, rfl⟩]
    rfl
  | cons c cs ih =>
    have hstep : dropThroughClose (c :: cs ++ '*' :: '/' :: u) =
        if c = '*' ∧ (cs ++ '*' :: '/' :: u).head? = some '/' then
          some ((cs ++ '*' :: '/' :: u).tail)
        else dropThroughClose (cs ++ '*' :: '/' :: u) := by
      rw [dropThroughClose.eq_def]
      rfl
    rw [hstep]
    have hc : ¬ (c = '*' ∧ (cs ++ '*' :: '/' :: u).head? = some '/') := by
      rintro ⟨hc1, hc2⟩
      subst hc1
      cases cs with
      | nil => simp at hc2
      | cons d rest =>
        simp only [List.cons_append, List.head?_cons, Option.some.injEq] at hc2
        exact hasPair_head_false h hc2
    rw [if_neg hc]
    exact ih (hasPair_cons_false h)

theorem stripBlockGo_no_open {l : List Char} (h : hasPair '/' '*' l = false) :
    stripBlockGo l = l := by
  unfold stripBlockGo
  suffices hgen : ∀ (f : Nat) (l : List Char), l.length ≤ f →
      hasPair '/' '*' l = false → stripBlockFuel f l = l by
    exact hgen l.length l (Nat.le_refl _) h
  intro f
  induction f with
  | zero =>
    intro l hf _h
    have : l = [] := List.length_eq_zero.mp (Nat.le_zero.mp hf)
    subst this
    exact stripBlockFuel_nil 0
  | succ f ih =>
    intro l hf hnp
    cases l with
    | nil => exact stripBlockFuel_nil _
    | cons c cs =>
      rw [stripBlockFuel]
      have hc : ¬ (c = '/' ∧ cs.head? = some '*') := by
        rintro ⟨hc1, hc2⟩
        subst hc1
        cases cs with
        | nil => simp at hc2
        | cons d rest =>
          simp only [List.head?_cons, Option.some.injEq] at hc2
          exact hasPair_head_false hnp hc2
      rw [if_neg hc]
      simp only [List.length_cons] at hf
      rw [ih cs (by omega) (hasPair_cons_false hnp)]

theorem stripBlockGo_removes_span (p t u : List Char)
    (hp : hasPair '/' '*' p = false) (ht : hasPair '*' '/' t = false) :
    stripBlockGo (p ++ '/' :: '*' :: (t ++ '*' :: '/' :: u)) = p ++ stripBlockGo u := by
  unfold stripBlockGo
  suffices hgen : ∀ (p : List Char) (f : Nat),
      (p ++ '/' :: '*' :: (t ++ '*' :: '/' :: u)).length ≤ f →
      hasPair '/' '*' p = false →
      stripBlockFuel f (p ++ '/' :: '*' :: (t ++ '*' :: '/' :: u)) =
        p ++ stripBlockFuel u.length u by
    exact hgen p _ (Nat.le_refl _) hp
  intro p
  induction p with
  | nil =>
    intro f hf _hp
    simp only [List.nil_append] at hf ⊢
    cases f with
    | zero => simp at hf
    | succ f =>
      rw [stripBlockFuel]
      rw [if_pos ⟨rfl, by simp⟩]
      simp only [List.tail_cons]
      rw [dropThroughClose_skip u ht]
      refine stripBlockFuel_irrel f u u.length ?_ (Nat.le_refl _)
      simp only [List.length_cons, List.length_append] at hf
      omega
  | cons c p' ih =>
    intro f hf hnp
    cases f with
    | zero => simp at hf
    | succ f =>
      rw [List.cons_append, stripBlockFuel]
      have hc : ¬ (c = '/' ∧ (p' ++ '/' :: '*' :: (t ++ '*' :: '/' :: u)).head? = some '*') := by
        rintro ⟨hc1, hc2⟩
        subst hc1
        cases p' with
        | nil => simp at hc2
        | cons d rest =>
          simp only [List.cons_append, List.head?_cons, Option.some.injEq] at hc2
          exact hasPair_head_false hnp hc2
      rw [if_neg hc]
      simp only [List.cons_append, List.length_cons] at hf
      rw [ih f (by omega) (hasPair_cons_false hnp)]
      rfl

theorem splitOnChar_no_sep {sep : Char} {l : List Char}
    (h : ∀ c ∈ l, ¬ c = sep) : splitOnChar sep l = [l] := by
  induction l with
  | nil => rfl
  | cons c cs ih =>
    rw [splitOnChar]
    have hc : ¬ (c == sep) = true := by
      simp only [beq_iff_eq]
      exact h c (by simp)
    rw [if_neg hc]
    rw [ih (fun d hd => h d (by simp [hd]))]

theorem stripLineComments_single {line : String}
    (hnl : ∀ c ∈ line.data, ¬ c = '\n') :
    stripLineComments line = if isCommentLine line.data then "" else line := by
  unfold stripLineComments
  rw [splitOnChar_no_sep hnl]
  have heta : (⟨line.data⟩ : String) = line := rfl
  simp only [List.map_cons, List.map_nil, heta]
  by_cases hc : isCommentLine line.data = true
  · simp only [hc, if_true]
    rfl
  · simp only [Bool.not_eq_true] at hc
    simp only [hc, Bool.false_eq_true, if_false]
    rfl

/-- C9: the comment stripper deletes every `/* ... */` span — up to the
next `*/`, irrespective of any surrounding JSON string-literal context —
so a string value containing block-comment markers is corrupted before
parsing; a `//` on a line that carries other code is preserved, because
only lines consisting solely of a `//` comment (after leading
whitespace) are emptied.  Illustrated on a config whose string value
holds `/*y*/`, one whose value holds `//`, and a full-line comment. -/
theorem claim_C9_stripJsonComments :
    (∀ p t u : List Char, hasPair '/' '*' p = false → hasPair '*' '/' t = false →
        stripBlockGo (p ++ '/' :: '*' :: (t ++ '*' :: '/' :: u)) = p ++ stripBlockGo u) ∧
    (∀ line : String, (∀ c ∈ line.data, ¬ c = '\n') →
        isCommentLine line.data = false → stripLineComments line = line) ∧
    stripJsonComments "\x7b \"a\": \"x/*y*/z\" \x7d" = "\x7b \"a\": \"xz\" \x7d" ∧
    stripJsonComments "\x7b \"url\": \"http://e\" \x7d" = "\x7b \"url\": \"http://e\" \x7d" ∧
    stripJsonComments "  // c\nx" = "\nx" := by
  refine ⟨stripBlockGo_removes_span, ?_, by decide, by decide, by decide⟩
  intro line hnl hc
  rw [stripLineComments_single hnl, if_neg (by rw [hc]; exact Bool.false_ne_true)]

/-- Witness for C9 at a concrete decomposition: the span `/*y*/` inside
the string literal is removed. -/
theorem claim_C9_stripJsonComments_witness :
    stripBlockGo ("\x7b \"a\": \"x".data ++ '/' :: '*' :: ("y".data ++ '*' :: '/' :: "z\" \x7d".data)) =
      "\x7b \"a\": \"x".data ++ stripBlockGo ("z\" \x7d".data) ∧
    stripLineComments "\x7b \"b\": 1 \x7d // end" = "\x7b \"b\": 1 \x7d // end" := by
  constructor
  · exact claim_C9_stripJsonComments.1 ("\x7b \"a\": \"x".data) ("y".data) ("z\" \x7d".data)
      (by decide) (by decide)
  · exact claim_C9_stripJsonComments.2.1 "\x7b \"b\": 1 \x7d // end" (by decide) (by decide)

/-! ## Claim C10 (`listContainers` fallback behaviour) -/

theorem listContainersGo_result_empty (env : CliEnv) :
    ∀ (vs att : List (List String)),
    (∀ a ∈ vs, ∀ recs, classifyVariant env a ≠ .success recs) →
    (listContainersGo env vs att).1 = [] := by
  intro vs
  induction vs with
  | nil => intro att _h; rfl
  | cons a rest ih =>
    intro att h
    have hrest : ∀ b ∈ rest, ∀ recs, classifyVariant env b ≠ .success recs :=
      fun b hb => h b (by simp [hb])
    cases hc : classifyVariant env a with
    | throws =>
      have hstep : listContainersGo env (a :: rest) att =
          listContainersGo env rest (att ++ [a]) := by
        rw [listContainersGo]; simp only [hc]
      rw [hstep]; exact ih _ hrest
    | emptyOut =>
      have hstep : listContainersGo env (a :: rest) att = ([], att ++ [a]) := by
        rw [listContainersGo]; simp only [hc]
      rw [hstep]
    | parseFail =>
      have hstep : listContainersGo env (a :: rest) att =
          listContainersGo env rest (att ++ [a]) := by
        rw [listContainersGo]; simp only [hc]
      rw [hstep]; exact ih _ hrest
    | noArray =>
      have hstep : listContainersGo env (a :: rest) att =
          listContainersGo env rest (att ++ [a]) := by
        rw [listContainersGo]; simp only [hc]
      rw [hstep]; exact ih _ hrest
    | success recs => exact absurd hc (h a (by simp) recs)

theorem listContainersGo_stop (env : CliEnv) :
    ∀ (vs1 : List (List String)) (v : List String) (vs2 att : List (List String)),
    (∀ a ∈ vs1, (classifyVariant env a).isContinueB = true) →
    ((classifyVariant env v = .emptyOut →
        listContainersGo env (vs1 ++ v :: vs2) att = ([], att ++ vs1 ++ [v])) ∧
     (∀ recs, classifyVariant env v = .success recs →
        listContainersGo env (vs1 ++ v :: vs2) att =
          ((recs.enum.map (fun p => mapContainerRecord p.2 p.1)), att ++ vs1 ++ [v]))) := by
  intro vs1
  induction vs1 with
  | nil =>
    intro v vs2 att _h
    constructor
    · intro hv
      have hstep : listContainersGo env (v :: vs2) att = ([], att ++ [v]) := by
        rw [listContainersGo]; simp only [hv]
      simpa using hstep
    · intro recs hv
      have hstep : listContainersGo env (v :: vs2) att =
          ((recs.enum.map (fun p => mapContainerRecord p.2 p.1)), att ++ [v]) := by
        rw [listContainersGo]; simp only [hv]
      simpa using hstep
  | cons a rest ih =>
    intro v vs2 att h
    have ha := h a (by simp)
    have hrest : ∀ b ∈ rest, (classifyVariant env b).isContinueB = true :=
      fun b hb => h b (by simp [hb])
    have key : listContainersGo env ((a :: rest) ++ v :: vs2) att =
        listContainersGo env (rest ++ v :: vs2) (att ++ [a]) := by
      cases hc : classifyVariant env a with
      | throws => rw [List.cons_append, listContainersGo]; simp only [hc]
      | emptyOut => rw [hc] at ha; simp [VariantClass.isContinueB] at ha
      | parseFail => rw [List.cons_append, listContainersGo]; simp only [hc]
      | noArray => rw [List.cons_append, listContainersGo]; simp only [hc]
      | success recs => rw [hc] at ha; simp [VariantClass.isContinueB] at ha
    constructor
    · intro hv
      rw [key, (ih v vs2 (att ++ [a]) hrest).1 hv]
      simp
    · intro recs hv
      rw [key, (ih v vs2 (att ++ [a]) hrest).2 recs hv]
      simp

/-- C10: `listContainers` never rejects on CLI failure or output shape —
when every command variant throws, yields unparsable JSON/NDJSON, or
yields a JSON payload without a container array, it resolves with the
empty list; an empty stdout on a variant short-circuits immediately to
the empty list (attempting no further variants); and a successfully
parsed variant ends the fallback sequence with its mapped records. -/
theorem claim_C10_listContainers (env : CliEnv) :
    ((∀ a ∈ containerListVariants, ∀ recs, classifyVariant env a ≠ .success recs) →
        (listContainers env).1 = []) ∧
    (∀ vs1 v vs2, vs1 ++ v :: vs2 = containerListVariants →
        (∀ a ∈ vs1, (classifyVariant env a).isContinueB = true) →
        ((classifyVariant env v = .emptyOut →
            listContainers env = ([], vs1 ++ [v])) ∧
         (∀ recs, classifyVariant env v = .success recs →
            listContainers env =
              ((recs.enum.map (fun p => mapContainerRecord p.2 p.1)), vs1 ++ [v])))) := by
  constructor
  · intro h
    exact listContainersGo_result_empty env containerListVariants [] h
  · intro vs1 v vs2 hdec h
    have := listContainersGo_stop env vs1 v vs2 [] h
    constructor
    · intro hv
      have hres := this.1 hv
      unfold listContainers
      rw [← hdec, hres]
      simp
    · intro recs hv
      have hres := this.2 recs hv
      unfold listContainers
      rw [← hdec, hres]
      simp

/-- Witness for C10: the first variant throws, the second returns empty
stdout, and the call resolves with no containers after exactly two
attempts. -/
theorem claim_C10_listContainers_witness :
    listContainers
      { spawn := fun args =>
          if args.length = 4 then .failure none (some "boom") none
          else .success "" ""
        parse := fun _ => none } =
      ([], [["ls", "-a", "--format", "json"], ["ls", "-a"]]) := by
  have h := (claim_C10_listContainers
      { spawn := fun args =>
          if args.length = 4 then .failure none (some "boom") none
          else .success "" ""
        parse := fun _ => none }).2
    [["ls", "-a", "--format", "json"]] ["ls", "-a"]
    [["list", "--format", "json"], ["list", "-a"], ["list"]]
    rfl (by intro a ha; simp at ha; subst ha; rfl)
  exact (h.1 rfl).trans (by rfl)

/-! ## Claim C5 (build tags and the fallback image tag) -/

theorem resolveBuild_fallback_mem (b : DevcontainerBuildConfig) (ctx : VariableContext)
    (ws fb : String) (hfb : jsTrim fb ≠ "") :
    jsTrim fb ∈ (resolveBuild b ctx ws fb).tags := by
  unfold resolveBuild
  simp only []
  unfold addTag
  rw [if_pos hfb]
  exact setAdd_mem_self _ _

theorem resolveBuild_fallback_mem2 (b : DevcontainerBuildConfig) (ctx : VariableContext)
    (ws fb : String) (ht : jsTrim fb = fb) (hfb : fb ≠ "") :
    fb ∈ (resolveBuild b ctx ws fb).tags := by
  have h := resolveBuild_fallback_mem b ctx ws fb (by rw [ht]; exact hfb)
  rwa [ht] at h

theorem acm_tag_trim (s : String) :
    jsTrim ("acm/" ++ s ++ ":dev") = "acm/" ++ s ++ ":dev" ∧
    ("acm/" ++ s ++ ":dev" : String) ≠ "" := by
  have hdata : ("acm/" ++ s ++ ":dev").data =
      'a' :: 'c' :: 'm' :: '/' :: (s.data ++ [':', 'd', 'e', 'v']) := by
    rw [String.data_append, String.data_append]
    rfl
  have hsplit : ('a' :: 'c' :: 'm' :: '/' :: (s.data ++ [':', 'd', 'e', 'v'])) =
      ('a' :: 'c' :: 'm' :: '/' :: (s.data ++ [':', 'd', 'e'])) ++ ['v'] := by
    simp
  have htrimmed : trimChars ('a' :: 'c' :: 'm' :: '/' :: (s.data ++ [':', 'd', 'e', 'v'])) =
      'a' :: 'c' :: 'm' :: '/' :: (s.data ++ [':', 'd', 'e', 'v']) := by
    unfold trimChars
    rw [List.dropWhile_cons_of_neg (by decide)]
    unfold dropTrailWs
    rw [hsplit, List.reverse_append]
    simp only [List.reverse_cons, List.reverse_nil, List.nil_append, List.cons_append,
      List.singleton_append]
    rw [List.dropWhile_cons_of_neg (by decide)]
    simp
  constructor
  · show (⟨trimChars ("acm/" ++ s ++ ":dev").data⟩ : String) = "acm/" ++ s ++ ":dev"
    rw [hdata, htrimmed, ← hdata]
  · intro hcontra
    have := congrArg String.data hcontra
    rw [hdata] at this
    simp at this

theorem generateImageTag_trim (b : String) :
    jsTrim (generateImageTag b) = generateImageTag b ∧ generateImageTag b ≠ "" := by
  unfold generateImageTag
  exact acm_tag_trim _

/-- C5 (amended): when a configuration has a build section and resolution
succeeds, the resolved build's tag list always contains the resolved
image and is non-empty, and when the configuration specifies no `image`
the computed fallback tag `acm/<slugified-basename>:dev` is among the
tags; when an `image` is given, the image itself (not the fallback tag)
is what is guaranteed. -/
theorem claim_C5_amended (envO : String → Option String) (cfg : DevcontainerConfig)
    (ws : String) (r : ResolvedConfig) (b : DevcontainerBuildConfig)
    (hcb : cfg.build = some b) (h : resolveConfig envO cfg ws = .ok r) :
    r.build.isSome ∧
    ∀ rb, r.build = some rb →
      r.image ∈ rb.tags ∧ rb.tags ≠ [] ∧
      (cfg.image = none → generateImageTag (pathBasename ws) ∈ rb.tags) := by
  simp only [resolveConfig, hcb, Option.map_some'] at h
  split at h
  · exact absurd h (by simp)
  · have hr := Except.ok.inj h
    subst hr
    refine ⟨by simp, ?_⟩
    intro rb hrb
    simp only [Option.map_some', Option.some.injEq] at hrb
    subst hrb
    split
    · rename_i hct
      have hmem := List.elem_iff.mp hct
      refine ⟨hmem, List.ne_nil_of_mem hmem, ?_⟩
      intro himg
      simp only [himg, Option.getD_none]
      exact resolveBuild_fallback_mem2 b _ ws (generateImageTag (pathBasename ws))
        (generateImageTag_trim (pathBasename ws)).1 (generateImageTag_trim (pathBasename ws)).2
    · refine ⟨by simp, by simp, ?_⟩
      intro himg
      simp only [himg, Option.getD_none]
      exact List.mem_cons_of_mem _
        (resolveBuild_fallback_mem2 b _ ws (generateImageTag (pathBasename ws))
          (generateImageTag_trim (pathBasename ws)).1 (generateImageTag_trim (pathBasename ws)).2)

/-- C5 counterexample: with `image: "node:18"` and a build section, the
value passed to `resolveBuild` as the fallback is the image itself, so
the resolved tag list is `["node:18"]` and does *not* contain the
computed fallback tag `acm/demo:dev`. -/
theorem claim_C5_counterexample :
    ((resolveConfig (fun _ => none)
        { image := some "node:18", build := some ({} : DevcontainerBuildConfig) }
        "/Users/dev/demo").map
      (fun r => (r.image, r.build.map (fun rb => rb.tags)))) =
      .ok ("node:18", some ["node:18"]) ∧
    generateImageTag (pathBasename "/Users/dev/demo") = "acm/demo:dev" ∧
    ("acm/demo:dev" ∉ (["node:18"] : List String)) := by
  exact ⟨rfl, rfl, by decide⟩

/-- A default resolved-build value used only to name the concrete output
below. -/
def emptyResolvedBuild : ResolvedBuildConfig :=
  { context := "", dockerfile := none, args := [], labels := [], target := none
    noCache := false, platform := none, arch := none, os := none, cpus := none
    memory := none, progress := none, quiet := none, additionalOptions := [], tags := [] }

/-- The resolved configuration of a build-only devcontainer (no `image`). -/
def c5Resolved : ResolvedConfig :=
  ((resolveConfig (fun _ => none) { build := some ({} : DevcontainerBuildConfig) }
      "/w/demo").toOption).getD
    { name := "", image := "", remoteUser := none, workspaceFolder := "",
      workspacePath := "", ports := [], volumes := [], cpus := none, memory := none,
      additionalArgs := [], containerEnv := [], postCreateCommand := none,
      postStartCommand := none, build := none }

/-- Witness for C5 (amended) on a build-only configuration. -/
theorem claim_C5_amended_witness :
    c5Resolved.build.isSome ∧
    c5Resolved.image ∈ (c5Resolved.build.getD emptyResolvedBuild).tags ∧
    generateImageTag (pathBasename "/w/demo") ∈
      (c5Resolved.build.getD emptyResolvedBuild).tags := by
  have h := claim_C5_amended (fun _ => none)
    { build := some ({} : DevcontainerBuildConfig) } "/w/demo" c5Resolved
    ({} : DevcontainerBuildConfig) rfl rfl
  have h2 := h.2 (c5Resolved.build.getD emptyResolvedBuild) rfl
  exact ⟨h.1, h2.1, h2.2.2 rfl⟩

/-! ### C1–C4: the orchestrator proper -/

/-- The two lifecycle labels are distinct strings. -/
theorem lifecycle_label_ne : ("postCreateCommand" : String) ≠ "postStartCommand" := by
  decide

/-- C1: on the reuse path (a container with the configured name exists and
rebuild was not requested), when the CLI steps succeed the apply call
starts the existing container, re-provisions the SSH key and the local
SSH configuration, runs `postStartCommand` exactly when one is declared
(truthy), never runs `postCreateCommand`, issues no remove and no create
call, and ends with the success notification (early return: no state
write either). -/
theorem claim_C1_reuse (w : CliWorld) (r : ResolvedConfig) (ex : ContainerRef)
    (hfind : findContainerByName w.containers r.name = some ex)
    (hbuild : w.buildErr = none) (hstart : w.startErr = none)
    (hkey : w.sshKeyErr = none) (hcfg : w.sshConfigErr = none)
    (hpost : w.postStartErr = none) :
    (applyDevcontainerResolved w r false).outcome = none ∧
    (applyDevcontainerResolved w r false).stateWritten = false ∧
    OrchEvent.startContainer ex.id ∈ (applyDevcontainerResolved w r false).trace ∧
    OrchEvent.ensureSshKey ∈ (applyDevcontainerResolved w r false).trace ∧
    OrchEvent.injectSshKey ex.id ∈ (applyDevcontainerResolved w r false).trace ∧
    OrchEvent.updateSshConfig r.name ((detectForwardedPort r.ports 22).getD "2222") ∈
      (applyDevcontainerResolved w r false).trace ∧
    (OrchEvent.runLifecycle "postStartCommand" ∈ (applyDevcontainerResolved w r false).trace ↔
      cmdTruthy r.postStartCommand = true) ∧
    OrchEvent.runLifecycle "postCreateCommand" ∉ (applyDevcontainerResolved w r false).trace ∧
    (∀ tgt, OrchEvent.removeAttempt tgt ∉ (applyDevcontainerResolved w r false).trace) ∧
    (∀ nm, OrchEvent.createAttempt nm ∉ (applyDevcontainerResolved w r false).trace) ∧
    (applyDevcontainerResolved w r false).trace.getLast? =
      some (OrchEvent.notify ("Devcontainer " ++ r.name ++ " is ready (reused).")) := by
  have hres : applyDevcontainerResolved w r false =
      ⟨(if r.build.isSome then [OrchEvent.buildImage] else []) ++
        [OrchEvent.listContainers, OrchEvent.startContainer ex.id, OrchEvent.ensureSshKey,
         OrchEvent.injectSshKey ex.id,
         OrchEvent.updateSshConfig r.name ((detectForwardedPort r.ports 22).getD "2222")] ++
        (if cmdTruthy r.postStartCommand then [OrchEvent.runLifecycle "postStartCommand"]
         else []) ++
        [OrchEvent.notify ("Devcontainer " ++ r.name ++ " is ready (reused).")],
        none, false⟩ := by
    cases hb : r.build.isSome <;> cases hps : cmdTruthy r.postStartCommand <;>
      simp [applyDevcontainerResolved, hb, hbuild, hfind, hstart, hkey, hcfg,
        runPostCommands, lifecycleStep, hpost, hps]
  rw [hres]
  cases hb : r.build.isSome <;> cases hps : cmdTruthy r.postStartCommand <;>
    simp [hb, hps, lifecycle_label_ne]

/-- A runtime state in which a container named `acm-demo` already exists
and every CLI step succeeds. -/
def c1World : CliWorld := { containers := [⟨"cid-1", "acm-demo"⟩] }

/-- A resolved configuration named `acm-demo` declaring both lifecycle
commands and no build section. -/
def c1Resolved : ResolvedConfig :=
  { name := "acm-demo", image := "ubuntu:22.04", remoteUser := none,
    workspaceFolder := "/workspace", workspacePath := "/w/demo", ports := [],
    volumes := [], cpus := none, memory := none, additionalArgs := [],
    containerEnv := [], postCreateCommand := some (.str "npm install"),
    postStartCommand := some (.str "npm start"), build := none }

/-- Witness for C1 on the concrete reuse scenario. -/
theorem claim_C1_reuse_witness :
    (applyDevcontainerResolved c1World c1Resolved false).outcome = none ∧
    OrchEvent.startContainer "cid-1" ∈ (applyDevcontainerResolved c1World c1Resolved false).trace ∧
    OrchEvent.runLifecycle "postStartCommand" ∈
      (applyDevcontainerResolved c1World c1Resolved false).trace ∧
    OrchEvent.runLifecycle "postCreateCommand" ∉
      (applyDevcontainerResolved c1World c1Resolved false).trace ∧
    (∀ nm, OrchEvent.createAttempt nm ∉ (applyDevcontainerResolved c1World c1Resolved false).trace) ∧
    (∀ tgt, OrchEvent.removeAttempt tgt ∉ (applyDevcontainerResolved c1World c1Resolved false).trace) := by
  have h := claim_C1_reuse c1World c1Resolved ⟨"cid-1", "acm-demo"⟩ (by decide)
    rfl rfl rfl rfl rfl
  exact ⟨h.1, h.2.2.1, (h.2.2.2.2.2.2.1).mpr (by decide), h.2.2.2.2.2.2.2.1,
    h.2.2.2.2.2.2.2.2.2.1, h.2.2.2.2.2.2.2.2.1⟩

/-- Every event issued by `runPostCommands` is a lifecycle run. -/
theorem runPostCommands_events (w : CliWorld) (r : ResolvedConfig) (a b : Bool) :
    ∀ e ∈ (runPostCommands w r a b).1,
      e = OrchEvent.runLifecycle "postCreateCommand" ∨
      e = OrchEvent.runLifecycle "postStartCommand" := by
  intro e he
  by_cases h1 : (a && cmdTruthy r.postCreateCommand) = true <;>
  by_cases h2 : (b && cmdTruthy r.postStartCommand) = true <;>
  cases hpc : w.postCreateErr <;> cases hps : w.postStartErr <;>
  simp [runPostCommands, lifecycleStep, h1, h2, hpc, hps] at he <;>
  simp_all

/-- The tail appended by `provisionAfterCreate` contains no create and no
remove operation. -/
theorem provisionAfterCreate_tail (w : CliWorld) (r : ResolvedConfig) (t : List OrchEvent) :
    ∃ u, (provisionAfterCreate w r t).trace = t ++ u ∧
      ∀ nm, OrchEvent.createAttempt nm ∉ u ∧ OrchEvent.removeAttempt nm ∉ u := by
  cases hv : w.createdVisible with
  | false =>
    exact ⟨[OrchEvent.listContainers], by simp [provisionAfterCreate, hv], by simp⟩
  | true =>
    cases hs : w.startErr with
    | some m =>
      exact ⟨[OrchEvent.listContainers, OrchEvent.startContainer (w.createdId.getD r.name)],
        by simp [provisionAfterCreate, hv, hs], by simp⟩
    | none =>
      cases hc : w.sshConfigErr with
      | some m =>
        exact ⟨[OrchEvent.listContainers, OrchEvent.startContainer (w.createdId.getD r.name),
            OrchEvent.injectSshKey (w.createdId.getD r.name),
            OrchEvent.updateSshConfig r.name ((detectForwardedPort r.ports 22).getD "2222")],
          by simp [provisionAfterCreate, hv, hs, hc], by simp⟩
      | none =>
        have hrp := runPostCommands_events w r (cmdTruthy r.postCreateCommand)
          (cmdTruthy r.postStartCommand)
        set rp := runPostCommands w r (cmdTruthy r.postCreateCommand)
          (cmdTruthy r.postStartCommand) with hrpdef
        have hbenign : ∀ nm, OrchEvent.createAttempt nm ∉ rp.1 ∧
            OrchEvent.removeAttempt nm ∉ rp.1 := by
          intro nm
          constructor <;> intro hmem <;> rcases hrp _ hmem with h | h <;> simp_all
        cases hpe : rp.2 with
        | some m =>
          refine ⟨[OrchEvent.listContainers, OrchEvent.startContainer (w.createdId.getD r.name),
              OrchEvent.injectSshKey (w.createdId.getD r.name),
              OrchEvent.updateSshConfig r.name ((detectForwardedPort r.ports 22).getD "2222")] ++
              rp.1, ?_, ?_⟩
          · simp [provisionAfterCreate, hv, hs, hc, ← hrpdef, hpe]
          · intro nm
            constructor
            · intro hmem
              rcases List.mem_append.mp hmem with h | h
              · simp at h
              · exact (hbenign nm).1 h
            · intro hmem
              rcases List.mem_append.mp hmem with h | h
              · simp at h
              · exact (hbenign nm).2 h
        | none =>
          refine ⟨[OrchEvent.listContainers, OrchEvent.startContainer (w.createdId.getD r.name),
              OrchEvent.injectSshKey (w.createdId.getD r.name),
              OrchEvent.updateSshConfig r.name ((detectForwardedPort r.ports 22).getD "2222")] ++
              rp.1 ++ [OrchEvent.notify ("Devcontainer " ++ r.name ++ " is ready.")], ?_, ?_⟩
          · simp [provisionAfterCreate, hv, hs, hc, ← hrpdef, hpe]
          · intro nm
            constructor
            · intro hmem
              rcases List.mem_append.mp hmem with h | h
              · rcases List.mem_append.mp h with h2 | h2
                · simp at h2
                · exact (hbenign nm).1 h2
              · simp at h
            · intro hmem
              rcases List.mem_append.mp hmem with h | h
              · rcases List.mem_append.mp h with h2 | h2
                · simp at h2
                · exact (hbenign nm).2 h2
              · simp at h

/-- C2: a create failure whose message contains `exists` triggers exactly
one forced removal of the conflicting name followed by exactly one
retried create (never a second loop), a failing retry propagates its
error, and a create failure without `exists` propagates immediately with
no removal and no retry. -/
theorem claim_C2_create_collision (w : CliWorld) (r : ResolvedConfig) (rebuild : Bool)
    (m : String)
    (hfind : findContainerByName w.containers r.name = none)
    (hbuild : w.buildErr = none) (hkey : w.sshKeyErr = none)
    (hcreate : w.createErr 0 = some m) :
    (strIncludes m "exists" = true →
      (applyDevcontainerResolved w r rebuild).trace.count (OrchEvent.removeAttempt r.name) = 1 ∧
      (applyDevcontainerResolved w r rebuild).trace.count (OrchEvent.createAttempt r.name) = 2 ∧
      (∃ p u, (applyDevcontainerResolved w r rebuild).trace =
          p ++ [OrchEvent.createAttempt r.name, OrchEvent.removeAttempt r.name,
                OrchEvent.createAttempt r.name] ++ u) ∧
      (∀ m2, w.createErr 1 = some m2 →
        (applyDevcontainerResolved w r rebuild).outcome = some m2)) ∧
    (strIncludes m "exists" = false →
      (applyDevcontainerResolved w r rebuild).outcome = some m ∧
      (applyDevcontainerResolved w r rebuild).trace.count (OrchEvent.removeAttempt r.name) = 0 ∧
      (applyDevcontainerResolved w r rebuild).trace.count (OrchEvent.createAttempt r.name) = 1) := by
  have hc0 : ∀ nm : String,
      OrchEvent.createAttempt nm ∉
        ((if r.build.isSome then [OrchEvent.buildImage] else []) ++ [OrchEvent.listContainers]) ∧
      OrchEvent.removeAttempt nm ∉
        ((if r.build.isSome then [OrchEvent.buildImage] else []) ++ [OrchEvent.listContainers]) := by
    intro nm
    cases hb : r.build.isSome <;> simp [hb]
  have happ : applyDevcontainerResolved w r rebuild =
      createAndProvision w r
        ((if r.build.isSome then [OrchEvent.buildImage] else []) ++ [OrchEvent.listContainers]) := by
    cases hb : r.build.isSome <;>
      simp [applyDevcontainerResolved, hb, hbuild, hfind]
  set T0 := (if r.build.isSome then [OrchEvent.buildImage] else []) ++
    [OrchEvent.listContainers] with hTdef
  refine ⟨fun he => ?_, fun he => ?_⟩
  · cases hc1 : w.createErr 1 with
    | none =>
      have hred : createAndProvision w r T0 =
          provisionAfterCreate w r (T0 ++ [OrchEvent.ensureSshKey, OrchEvent.createAttempt r.name,
            OrchEvent.removeAttempt r.name, OrchEvent.createAttempt r.name]) := by
        simp [createAndProvision, hkey, hcreate, he, hc1]
      obtain ⟨u, hu, hbenign⟩ := provisionAfterCreate_tail w r
        (T0 ++ [OrchEvent.ensureSshKey, OrchEvent.createAttempt r.name,
          OrchEvent.removeAttempt r.name, OrchEvent.createAttempt r.name])
      have htr : (applyDevcontainerResolved w r rebuild).trace =
          (T0 ++ [OrchEvent.ensureSshKey, OrchEvent.createAttempt r.name,
            OrchEvent.removeAttempt r.name, OrchEvent.createAttempt r.name]) ++ u := by
        rw [happ, hred, hu]
      refine ⟨?_, ?_, ⟨T0 ++ [OrchEvent.ensureSshKey], u, ?_⟩, ?_⟩
      · rw [htr]
        simp [List.count_append, List.count_eq_zero.mpr (hc0 r.name).2,
          List.count_eq_zero.mpr (hbenign r.name).2, List.count_cons]
      · rw [htr]
        simp [List.count_append, List.count_eq_zero.mpr (hc0 r.name).1,
          List.count_eq_zero.mpr (hbenign r.name).1, List.count_cons]
      · rw [htr]; simp
      · intro m2 hm2
        exact absurd hm2 (by simp)
    | some m2 =>
      have hred : createAndProvision w r T0 =
          ⟨T0 ++ [OrchEvent.ensureSshKey, OrchEvent.createAttempt r.name,
            OrchEvent.removeAttempt r.name, OrchEvent.createAttempt r.name], some m2, false⟩ := by
        simp [createAndProvision, hkey, hcreate, he, hc1]
      refine ⟨?_, ?_, ⟨T0 ++ [OrchEvent.ensureSshKey], [], ?_⟩, ?_⟩
      · rw [happ, hred]
        simp [List.count_append, List.count_eq_zero.mpr (hc0 r.name).2, List.count_cons]
      · rw [happ, hred]
        simp [List.count_append, List.count_eq_zero.mpr (hc0 r.name).1, List.count_cons]
      · rw [happ, hred]; simp
      · intro m3 hm3
        rw [happ, hred]
        simpa using hm3
  · have hred : createAndProvision w r T0 =
        ⟨T0 ++ [OrchEvent.ensureSshKey, OrchEvent.createAttempt r.name], some m, false⟩ := by
      simp [createAndProvision, hkey, hcreate, he]
    refine ⟨?_, ?_, ?_⟩
    · rw [happ, hred]
    · rw [happ, hred]
      simp [List.count_append, List.count_eq_zero.mpr (hc0 r.name).2, List.count_cons]
    · rw [happ, hred]
      simp [List.count_append, List.count_eq_zero.mpr (hc0 r.name).1, List.count_cons]

/-- An outcome oracle whose first create fails with a name collision and
whose retried create fails with a different error. -/
def c2World : CliWorld :=
  { containers := [],
    createErr := fun n => if n == 0 then some "container acm-demo already exists"
      else some "create failed again" }

/-- A plain image-only resolved configuration named `acm-demo`. -/
def c2Resolved : ResolvedConfig :=
  { name := "acm-demo", image := "ubuntu:22.04", remoteUser := none,
    workspaceFolder := "/workspace", workspacePath := "/w/demo", ports := [],
    volumes := [], cpus := none, memory := none, additionalArgs := [],
    containerEnv := [], postCreateCommand := none, postStartCommand := none,
    build := none }

/-- Witness for C2 on the concrete collision-then-failure scenario. -/
theorem claim_C2_create_collision_witness :
    (applyDevcontainerResolved c2World c2Resolved false).trace.count
      (OrchEvent.removeAttempt "acm-demo") = 1 ∧
    (applyDevcontainerResolved c2World c2Resolved false).trace.count
      (OrchEvent.createAttempt "acm-demo") = 2 ∧
    (applyDevcontainerResolved c2World c2Resolved false).outcome =
      some "create failed again" := by
  have h := claim_C2_create_collision c2World c2Resolved false
    "container acm-demo already exists" rfl rfl rfl rfl
  have h1 := h.1 (by decide)
  exact ⟨h1.1, h1.2.1, h1.2.2.2 "create failed again" rfl⟩

/-- An outcome oracle for the collision path: the first create collides,
the forced removal fails with an unrelated error, the retried create
succeeds. -/
def c3World : CliWorld :=
  { containers := [],
    createErr := fun n => if n == 0 then some "container acm-demo already exists" else none,
    removeErr := fun _ => some "operation not permitted" }

/-- A plain image-only resolved configuration named `acm-demo`. -/
def c3Resolved : ResolvedConfig :=
  { name := "acm-demo", image := "ubuntu:22.04", remoteUser := none,
    workspaceFolder := "/workspace", workspacePath := "/w/demo", ports := [],
    volumes := [], cpus := none, memory := none, additionalArgs := [],
    containerEnv := [], postCreateCommand := none, postStartCommand := none,
    build := none }

/-- C3 counterexample: in the collision path the forced removal fails
with `operation not permitted` — an error that indicates neither a
missing backing record nor a stop failure — yet the apply call does not
abort: the removal failure is swallowed, the create is retried, and the
call succeeds.  So removal failures other than the missing-record kind do
not all propagate. -/
theorem claim_C3_counterexample :
    removalOutcome (c3World.removeErr 0) = some "operation not permitted" ∧
    OrchEvent.removeAttempt "acm-demo" ∈
      (applyDevcontainerResolved c3World c3Resolved false).trace ∧
    (applyDevcontainerResolved c3World c3Resolved false).outcome = none ∧
    (applyDevcontainerResolved c3World c3Resolved false).trace.count
      (OrchEvent.createAttempt "acm-demo") = 2 := by
  exact ⟨rfl, by decide, rfl, by decide⟩

/-- C3 (amended): the orchestrator's local recoveries around removal are:
stop failures never influence the result (the result is independent of
the stop oracle); in the create-collision path the forced removal's
outcome is ignored entirely (creation is retried whatever the removal
error was); the removal helper swallows exactly the failures whose text
contains `No such file or directory` or `config.json`; and only in the
rebuild path does a non-missing-record removal failure propagate and
abort the call before any create attempt, while a missing-record failure
there lets the call proceed to creation. -/
theorem claim_C3_amended :
    (∀ (w : CliWorld) (r : ResolvedConfig) (rb : Bool) (e : Option String),
        applyDevcontainerResolved { w with stopErr := e } r rb =
          applyDevcontainerResolved w r rb) ∧
    (∀ (w : CliWorld) (r : ResolvedConfig) (t : List OrchEvent) (e : Nat → Option String),
        createAndProvision { w with removeErr := e } r t = createAndProvision w r t) ∧
    (∀ m : String, removalOutcome (some m) =
        if strIncludes m "No such file or directory" || strIncludes m "config.json"
        then none else some m) ∧
    (∀ (w : CliWorld) (r : ResolvedConfig) (ex : ContainerRef) (m : String),
        findContainerByName w.containers r.name = some ex → w.buildErr = none →
        removalOutcome (w.removeErr 0) = some m →
        (applyDevcontainerResolved w r true).outcome = some m ∧
        (∀ nm, OrchEvent.createAttempt nm ∉ (applyDevcontainerResolved w r true).trace) ∧
        (applyDevcontainerResolved w r true).trace =
          (if r.build.isSome then [OrchEvent.buildImage] else []) ++
            [OrchEvent.listContainers, OrchEvent.stopContainer ex.id,
             OrchEvent.stopContainer ex.id, OrchEvent.removeAttempt ex.id]) ∧
    (∀ (w : CliWorld) (r : ResolvedConfig) (ex : ContainerRef),
        findContainerByName w.containers r.name = some ex → w.buildErr = none →
        removalOutcome (w.removeErr 0) = none →
        applyDevcontainerResolved w r true =
          createAndProvision w r
            ((if r.build.isSome then [OrchEvent.buildImage] else []) ++
              [OrchEvent.listContainers, OrchEvent.stopContainer ex.id,
               OrchEvent.stopContainer ex.id, OrchEvent.removeAttempt ex.id])) := by
  refine ⟨?_, ?_, ?_, ?_, ?_⟩
  · intro w r rb e; cases w; rfl
  · intro w r t e; cases w; rfl
  · intro m; rfl
  · intro w r ex m hfind hbuild hm
    have hres : applyDevcontainerResolved w r true =
        ⟨(if r.build.isSome then [OrchEvent.buildImage] else []) ++
          [OrchEvent.listContainers, OrchEvent.stopContainer ex.id,
           OrchEvent.stopContainer ex.id, OrchEvent.removeAttempt ex.id], some m, false⟩ := by
      cases hb : r.build.isSome <;>
        simp [applyDevcontainerResolved, hb, hbuild, hfind, hm]
    rw [hres]
    refine ⟨rfl, ?_, by cases hb : r.build.isSome <;> simp [hb]⟩
    intro nm
    cases hb : r.build.isSome <;> simp [hb]
  · intro w r ex hfind hbuild hm
    cases hb : r.build.isSome <;>
      simp [applyDevcontainerResolved, hb, hbuild, hfind, hm]

/-- A rebuild scenario whose removal fails with an unrelated error. -/
def c3bWorld : CliWorld :=
  { containers := [⟨"cid-3", "acm-demo"⟩],
    removeErr := fun _ => some "device busy" }

/-- A rebuild scenario whose removal fails with a missing-record error. -/
def c3cWorld : CliWorld :=
  { containers := [⟨"cid-3", "acm-demo"⟩],
    removeErr := fun _ => some "stat /x: No such file or directory" }

/-- Witness for C3 (amended) on concrete rebuild scenarios. -/
theorem claim_C3_amended_witness :
    applyDevcontainerResolved { c3bWorld with stopErr := some "stop failed" } c3Resolved true =
      applyDevcontainerResolved c3bWorld c3Resolved true ∧
    removalOutcome (some "open config.json: no such process") = none ∧
    (applyDevcontainerResolved c3bWorld c3Resolved true).outcome = some "device busy" ∧
    (∀ nm, OrchEvent.createAttempt nm ∉
      (applyDevcontainerResolved c3bWorld c3Resolved true).trace) ∧
    applyDevcontainerResolved c3cWorld c3Resolved true =
      createAndProvision c3cWorld c3Resolved
        ((if c3Resolved.build.isSome then [OrchEvent.buildImage] else []) ++
          [OrchEvent.listContainers, OrchEvent.stopContainer "cid-3",
           OrchEvent.stopContainer "cid-3", OrchEvent.removeAttempt "cid-3"]) := by
  have h := claim_C3_amended
  have h4 := h.2.2.2.1 c3bWorld c3Resolved ⟨"cid-3", "acm-demo"⟩ "device busy"
    (by decide) rfl (by decide)
  exact ⟨h.1 c3bWorld c3Resolved true (some "stop failed"),
    (h.2.2.1 "open config.json: no such process").trans (by decide),
    h4.1, h4.2.1,
    h.2.2.2.2 c3cWorld c3Resolved ⟨"cid-3", "acm-demo"⟩ (by decide) rfl (by decide)⟩

/-- A plain resolved configuration used for the state-cache scenarios. -/
def c4Resolved : ResolvedConfig :=
  { name := "acm-demo", image := "ubuntu:22.04", remoteUser := none,
    workspaceFolder := "/workspace", workspacePath := "/w/demo", ports := [],
    volumes := [], cpus := none, memory := none, additionalArgs := [],
    containerEnv := [], postCreateCommand := none, postStartCommand := none,
    build := none }

/-- A workspace folder whose configuration resolves successfully. -/
def c4Folder : FolderCtx := { key := "file:///w/demo", outcome := .resolved c4Resolved }

/-- C4 counterexample: starting from an empty cache, the read-only
operations `showOpenInstructions` and `runPostLifecycle` both leave a new
entry in the `appliedState` cache (via `getResolvedConfig`, which caches
on a miss), so the cache is not mutated only by apply/build calls. -/
theorem claim_C4_counterexample :
    showOpenInstructions c4Folder [] = .ok [("file:///w/demo", c4Resolved)] ∧
    runPostLifecycle { containers := [] } c4Folder [] =
      .ok [("file:///w/demo", c4Resolved)] ∧
    ([("file:///w/demo", c4Resolved)] : AppliedState) ≠ [] := by
  exact ⟨rfl, rfl, by simp⟩

/-- C4 (amended): the `appliedState` cache is cleared on disposal and is
written (a) by an apply call exactly when it reaches the cache write —
which happens after the created container starts, even if a later step
then fails the call — (b) by a successful build of a configuration with a
build section, and (c) by `getResolvedConfig` on every cache miss that
resolves, which the read paths `showOpenInstructions` and
`runPostLifecycle` both invoke; on a cache hit those read paths leave the
cache unchanged. -/
theorem claim_C4_amended :
    (∀ st : AppliedState, managerDispose st = []) ∧
    (∀ (w : CliWorld) (f : FolderCtx) (st : AppliedState) (rb : Bool) (r : ResolvedConfig),
        f.outcome = .resolved r →
        (applyDevcontainer w f st rb).1 =
          if (applyDevcontainerResolved w r rb).stateWritten then stateSet st f.key r
          else st) ∧
    (∀ (w : CliWorld) (r : ResolvedConfig) (m : String),
        findContainerByName w.containers r.name = none → w.buildErr = none →
        w.sshKeyErr = none → w.createErr 0 = none → w.createdVisible = true →
        w.startErr = none → w.sshConfigErr = some m →
        (applyDevcontainerResolved w r false).outcome = some m ∧
        (applyDevcontainerResolved w r false).stateWritten = true) ∧
    (∀ (w : CliWorld) (f : FolderCtx) (st : AppliedState) (r : ResolvedConfig)
        (b : ResolvedBuildConfig),
        f.outcome = .resolved r → r.build = some b → w.buildErr = none →
        (buildDevcontainer w f st).1 = stateSet st f.key r) ∧
    (∀ (f : FolderCtx) (st : AppliedState) (r : ResolvedConfig),
        stateGet st f.key = none → f.outcome = .resolved r →
        getResolvedConfig f st = .ok (some r, stateSet st f.key r)) ∧
    (∀ (f : FolderCtx) (st : AppliedState) (r : ResolvedConfig),
        stateGet st f.key = none → f.outcome = .resolved r →
        showOpenInstructions f st = .ok (stateSet st f.key r)) ∧
    (∀ (f : FolderCtx) (st : AppliedState) (c : ResolvedConfig),
        stateGet st f.key = some c → showOpenInstructions f st = .ok st) ∧
    (∀ (w : CliWorld) (f : FolderCtx) (st st2 : AppliedState) (c : ResolvedConfig),
        stateGet st f.key = some c → runPostLifecycle w f st = .ok st2 → st2 = st) ∧
    (∀ (w : CliWorld) (f : FolderCtx) (st st2 : AppliedState) (r : ResolvedConfig),
        stateGet st f.key = none → f.outcome = .resolved r →
        runPostLifecycle w f st = .ok st2 → st2 = stateSet st f.key r) := by
  refine ⟨?_, ?_, ?_, ?_, ?_, ?_, ?_, ?_, ?_⟩
  · intro st; rfl
  · intro w f st rb r hout
    simp [applyDevcontainer, hout]
  · intro w r m hfind hbuild hkey hcreate hv hs hc
    constructor <;> cases hb : r.build.isSome <;>
      simp [applyDevcontainerResolved, hb, hbuild, hfind, createAndProvision, hkey,
        hcreate, provisionAfterCreate, hv, hs, hc]
  · intro w f st r b hout hb hberr
    simp [buildDevcontainer, hout, hb, hberr]
  · intro f st r hmiss hout
    simp [getResolvedConfig, hmiss, hout]
  · intro f st r hmiss hout
    simp [showOpenInstructions, getResolvedConfig, hmiss, hout]
  · intro f st c hhit
    simp [showOpenInstructions, getResolvedConfig, hhit]
  · intro w f st st2 c hhit hok
    simp [runPostLifecycle, getResolvedConfig, hhit] at hok
    cases hf : findContainerByName w.containers c.name with
    | none => simp [hf] at hok; exact hok.symm
    | some ex =>
      cases hrp : (runPostCommands w c (cmdTruthy c.postCreateCommand)
          (cmdTruthy c.postStartCommand)).2 with
      | none => simp [hf, hrp] at hok; exact hok.symm
      | some m => simp [hf, hrp] at hok
  · intro w f st st2 r hmiss hout hok
    simp [runPostLifecycle, getResolvedConfig, hmiss, hout] at hok
    cases hf : findContainerByName w.containers r.name with
    | none => simp [hf] at hok; exact hok.symm
    | some ex =>
      cases hrp : (runPostCommands w r (cmdTruthy r.postCreateCommand)
          (cmdTruthy r.postStartCommand)).2 with
      | none => simp [hf, hrp] at hok; exact hok.symm
      | some m => simp [hf, hrp] at hok

/-- A resolved build section with an explicit tag. -/
def c4Build : ResolvedBuildConfig :=
  { context := "/w/demo2", dockerfile := none, args := [], labels := [],
    target := none, noCache := false, platform := none, arch := none, os := none,
    cpus := none, memory := none, progress := none, quiet := none,
    additionalOptions := [], tags := ["acm/demo:dev"] }

/-- A resolved configuration with a build section and an explicit tag. -/
def c4BuildResolved : ResolvedConfig :=
  { name := "acm-demo2", image := "acm/demo:dev", remoteUser := none,
    workspaceFolder := "/workspace", workspacePath := "/w/demo2", ports := [],
    volumes := [], cpus := none, memory := none, additionalArgs := [],
    containerEnv := [],
    postCreateCommand := none, postStartCommand := none,
    build := some c4Build }

/-- A workspace folder resolving to the build configuration. -/
def c4bFolder : FolderCtx := { key := "file:///w/demo2", outcome := .resolved c4BuildResolved }

/-- A world in which apply reaches the cache write and then fails while
updating the SSH configuration. -/
def c4World2 : CliWorld := { containers := [], sshConfigErr := some "ssh config write failed" }

/-- Witness for C4 (amended) on concrete cache scenarios. -/
theorem claim_C4_amended_witness :
    managerDispose [("file:///w/demo", c4Resolved)] = [] ∧
    getResolvedConfig c4Folder [] =
      .ok (some c4Resolved, stateSet [] c4Folder.key c4Resolved) ∧
    showOpenInstructions c4Folder [] = .ok (stateSet [] c4Folder.key c4Resolved) ∧
    showOpenInstructions c4Folder [("file:///w/demo", c4Resolved)] =
      .ok [("file:///w/demo", c4Resolved)] ∧
    (buildDevcontainer { containers := [] } c4bFolder []).1 =
      stateSet [] c4bFolder.key c4BuildResolved ∧
    (applyDevcontainerResolved c4World2 c4Resolved false).outcome =
      some "ssh config write failed" ∧
    (applyDevcontainerResolved c4World2 c4Resolved false).stateWritten = true := by
  have h := claim_C4_amended
  have h3 := h.2.2.1 c4World2 c4Resolved "ssh config write failed"
    rfl rfl rfl rfl rfl rfl rfl
  exact ⟨h.1 [("file:///w/demo", c4Resolved)],
    h.2.2.2.2.1 c4Folder [] c4Resolved rfl rfl,
    h.2.2.2.2.2.1 c4Folder [] c4Resolved rfl rfl,
    h.2.2.2.2.2.2.1 c4Folder [("file:///w/demo", c4Resolved)] c4Resolved rfl,
    h.2.2.2.1 { containers := [] } c4bFolder [] c4BuildResolved _ rfl rfl rfl,
    h3.1, h3.2⟩
